import Mathlib

/-!
# Lazygit: submodule controller and self-update orchestration

A shallow embedding of `pkg/gui/controllers/submodules_controller.go` and
`pkg/gui/updates.go`.

Go code with side effects becomes a state transformer over a `World` that
records every call made to a collaborator (prompt presenter, command executor,
error sink, refresh scheduler, status manager, updater) in an event trace.
The answers of the collaborators are parameters gathered in `Env`; the
reactions of the user to successive popups are a script stored in the world.
Go's `error` is `Option Err`, with `nil` as `none`.
-/

namespace Lazygit

/-! ## Data model -/

/-- A non-nil Go error value. `ErrQuit` is the sentinel `gocui.ErrQuit`. -/
inductive Err where
  | ErrQuit
  | other (msg : String)
  deriving DecidableEq, Repr

/-- Go's `error` interface: `nil` is `none`. -/
abbrev Error := Option Err

/-- The method `err.Error()`: the message carried by an error. -/
def Err.Error : Err → String
  | .ErrQuit => "quit"
  | .other msg => msg

/-- The struct `models.SubmoduleConfig`. -/
structure SubmoduleConfig where
  Name : String
  Path : String
  Url : String
  deriving DecidableEq, Repr

/-- The struct `models.File`, reduced to what the controller reads:
the result of `Names()` and the field `Tracked`. -/
structure File where
  Names : List String
  Tracked : Bool
  deriving DecidableEq, Repr

/-- Modelled from the spec: the view categories of a refresh scope (the type
`types.RefreshableView` is declared outside these two files). The spec observes two
values: the working-tree file list and the submodule list. -/
inductive RefreshableView where
  | FILES
  | SUBMODULES
  deriving DecidableEq, Repr

/-- Modelled from the spec: the refresh mode (the type `types.RefreshMode` is
declared outside these two files): synchronous or asynchronous. -/
inductive RefreshMode where
  | SYNC
  | ASYNC
  deriving DecidableEq, Repr

/-- The struct `types.RefreshOptions`; a literal that leaves `Mode` out gets the
synchronous mode. -/
structure RefreshOptions where
  Mode : RefreshMode := RefreshMode.SYNC
  Scope : List RefreshableView
  deriving DecidableEq, Repr

/-- The mutating calls the controller delegates to the command executor
(`self.git.Submodule...`, `self.git.WorkingTree...`). -/
inductive GitCall where
  | SubmoduleAdd (name path url : String)
  | SubmoduleUpdateUrl (name path newUrl : String)
  | SubmoduleInit (path : String)
  | SubmoduleUpdate (path : String)
  | SubmoduleDelete (submodule : SubmoduleConfig)
  | SubmoduleStash (submodule : SubmoduleConfig)
  | SubmoduleReset (submodule : SubmoduleConfig)
  | SubmoduleResetSubmodules (submodules : List SubmoduleConfig)
  | BulkInitRun
  | BulkUpdateRun
  | BulkDeinitRun
  | WorkingTreeUnStageFile (names : List String) (tracked : Bool)
  deriving DecidableEq, Repr

/-- One call to a collaborator, as recorded in the trace. -/
inductive Event where
  | Prompt (title initialContent : String)
  | Ask (title prompt : String)
  | Menu (title : String) (items : List (List String))
  | LogAction (action : String)
  | Git (call : GitCall)
  | Error (err : Err)
  | Refresh (opts : RefreshOptions)
  | AddWaitingStatus (id : Nat) (label : String)
  | RemoveStatus (id : Nat)
  | SurfaceError (err : Err)
  | CreateErrorPanel (msg : String)
  | LogError (msg : String)
  | UpdaterUpdate (newVersion : String) (statusId : Nat)
  | RenderAppStatus (content : String)
  deriving DecidableEq, Repr

/-- What the user does with a popup: dismiss it, submit a text (prompt),
accept (yes/no confirmation), or press the item with a given index (menu). -/
inductive UserInput where
  | cancel
  | submit (text : String)
  | yes
  | press (item : Nat)
  deriving DecidableEq, Repr

/-- The mutable state the two files act on.
* `inputs`: the reactions of the user to the popups still to come, in order;
* `trace`: every collaborator call so far, oldest first;
* `statuses`, `nextStatusId`: the registry of the status manager;
* `Updating`: the flag `gui.State.Updating`. -/
structure World where
  inputs : List UserInput
  trace : List Event
  statuses : List (Nat × String)
  nextStatusId : Nat
  Updating : Bool
  deriving DecidableEq, Repr

/-- An effectful Go function returning `α`. -/
abbrev M (α : Type) := StateM World α

/-- The translation strings (`self.Tr`) read by the controller. -/
structure TranslationSet where
  LcEnterSubmodule : String
  LcViewResetAndRemoveOptions : String
  LcSubmoduleUpdate : String
  LcAddSubmodule : String
  LcEditSubmoduleUrl : String
  LcInitSubmodule : String
  LcViewBulkSubmoduleOptions : String
  LcResettingSubmoduleStatus : String
  LcNewSubmoduleUrl : String
  LcNewSubmoduleName : String
  LcNewSubmodulePath : String
  LcAddingSubmoduleStatus : String
  LcUpdateSubmoduleUrl : String
  LcUpdatingSubmoduleUrlStatus : String
  LcInitializingSubmoduleStatus : String
  LcSubmoduleStashAndReset : String
  LcRemoveSubmodule : String
  LcBulkSubmoduleOptions : String
  LcBulkInitSubmodules : String
  LcBulkUpdateSubmodules : String
  LcBulkDeinitSubmodules : String
  LcRunningCommand : String
  LcUpdatingSubmoduleStatus : String
  RemoveSubmodule : String
  RemoveSubmodulePrompt : String
  ActionsAddSubmodule : String
  ActionsUpdateSubmoduleUrl : String
  ActionsInitialiseSubmodule : String
  ActionsBulkInitialiseSubmodules : String
  ActionsBulkUpdateSubmodules : String
  ActionsBulkStashAndResetSubmodules : String
  ActionsBulkDeinitialiseSubmodules : String
  ActionsUpdateSubmodule : String
  ActionsRemoveSubmodule : String
  ActionsResetSubmodule : String

/-- The key names of `config.KeybindingConfig` read by `Keybindings`. -/
structure KeybindingConfig where
  UniversalGoInto : String
  UniversalRemove : String
  UniversalNew : String
  UniversalEdit : String
  SubmodulesUpdate : String
  SubmodulesInit : String
  SubmodulesBulkMenu : String

/-- The text colours of package `style` used by the bulk menu. -/
inductive Color where
  | FgGreen
  | FgYellow
  | FgRed
  deriving DecidableEq, Repr

/-- Everything the two files take from outside: the fields of the controller
and of the gui, and the answers of the collaborators whose code is not part of
these two files. Each answer is a function of the call's arguments. -/
structure Env where
  Tr : TranslationSet
  /-- The function `fmt.Sprintf`. -/
  Sprintf : String → List String → String
  /-- The method `Sprint` of a colour of package `style`. -/
  Sprint : Color → String → String
  /-- The controller field `enterSubmoduleFn`. -/
  enterSubmoduleFn : SubmoduleConfig → M Error
  /-- The controller field `getSelectedSubmodule`; `nil` is `none`. -/
  getSelectedSubmodule : World → Option SubmoduleConfig
  /-- The controller field `submodules`. -/
  submodules : List SubmoduleConfig
  /-- The result of `self.fileManager.GetAllFiles()`. -/
  GetAllFiles : List File
  /-- The method `file.IsSubmodule(configs)`. -/
  IsSubmodule : File → List SubmoduleConfig → Bool
  /-- The error returned by a call to the command executor. -/
  gitResult : GitCall → Error
  /-- The value returned by `self.Error(err)`. -/
  ErrorResult : Err → Error
  /-- The value returned by `self.Refresh(opts)`. -/
  RefreshResult : RefreshOptions → Error
  /-- The value returned by `gui.SurfaceError(err)`. -/
  SurfaceErrorResult : Err → Error
  /-- The value returned by `gui.CreateErrorPanel(msg)`. -/
  CreateErrorPanelResult : String → Error
  /-- The value of `gui.Config.GetUserConfig().Update.Method`. -/
  UpdateMethod : String
  /-- The text `ToString()` of the bulk init, update, forced update and deinit
  command objects. -/
  BulkInitCmdString : String
  BulkUpdateCmdString : String
  ForceBulkUpdateCmdString : String
  BulkDeinitCmdString : String

/-! ## Go library functions used for the name suggestion -/

/-- The test `os.IsPathSeparator` on Unix. -/
def IsPathSeparator (c : Char) : Bool := c == '/'

/-- The loop of `filepath.Ext`, walking the path from its last character:
`rev` holds the characters not yet visited, last first, and `seen` the ones
already visited, in path order. -/
def ExtLoop : List Char → List Char → List Char
  | [], _ => []
  | c :: rev, seen =>
    if IsPathSeparator c then []
    else if c == '.' then c :: seen
    else ExtLoop rev (c :: seen)

/-- The function `filepath.Ext`: the suffix beginning at the final dot in the
final path element; empty if there is no dot. -/
def Ext (path : String) : String := String.mk (ExtLoop path.data.reverse [])

/-- The function `strings.TrimSuffix`. -/
def TrimSuffix (s suffix : String) : String :=
  if suffix.data.isSuffixOf s.data then
    String.mk (s.data.take (s.data.length - suffix.data.length))
  else s

/-- The function `filepath.Base` on Unix (the volume name is empty): trailing
separators are dropped, then everything up to the last separator. -/
def Base (path : String) : String :=
  if path = "" then "."
  else
    let stripped := path.data.reverse.dropWhile IsPathSeparator
    let last := (stripped.takeWhile fun c => !IsPathSeparator c).reverse
    if last = [] then "/" else String.mk last

/-! ## Collaborators -/

/-- Append an event to the trace. -/
def emit (e : Event) : M Unit :=
  modify fun w => { w with trace := w.trace ++ [e] }

/-- Take the next reaction of the user; an exhausted script means the popup is
never answered. -/
def nextInput : M UserInput :=
  modifyGet fun w =>
    match w.inputs with
    | [] => (UserInput.cancel, w)
    | i :: rest => (i, { w with inputs := rest })

/-- The struct `popup.PromptOpts`. -/
structure PromptOpts where
  Title : String
  InitialContent : String := ""
  HandleConfirm : String → M Error

/-- The struct `popup.AskOpts`. -/
structure AskOpts where
  Title : String
  Prompt : String
  HandleConfirm : M Error

/-- The struct `popup.MenuItem`. -/
structure MenuItem where
  DisplayString : String := ""
  DisplayStrings : List String := []
  OnPress : M Error

/-- The struct `popup.CreateMenuOptions`. -/
structure CreateMenuOptions where
  Title : String
  Items : List MenuItem

/-- Modelled from the spec: the presenter call `prompt(title, initialContent,
onConfirm(input))`, whose code is outside these two files. The prompt is presented;
if the user submits a text the continuation runs on it and its result is the
result, and on any other reaction no callback is invoked and the result is
`nil`. -/
def Prompt (opts : PromptOpts) : M Error := do
  emit (Event.Prompt opts.Title opts.InitialContent)
  match (← nextInput) with
  | UserInput.submit text => opts.HandleConfirm text
  | _ => pure none

/-- Modelled from the spec: the presenter call `ask(title, promptText,
onConfirm())`, whose code is outside these two files; no callback is invoked unless
the user accepts. -/
def Ask (opts : AskOpts) : M Error := do
  emit (Event.Ask opts.Title opts.Prompt)
  match (← nextInput) with
  | UserInput.yes => opts.HandleConfirm
  | _ => pure none

/-- The strings a menu item displays. -/
def MenuItem.display (item : MenuItem) : List String :=
  if item.DisplayStrings = [] then [item.DisplayString] else item.DisplayStrings

/-- Modelled from the spec: the presenter call `menu(title, items)`, whose code
is outside these two files; pressing an item runs its `onPress`, and no callback is
invoked otherwise. -/
def Menu (opts : CreateMenuOptions) : M Error := do
  emit (Event.Menu opts.Title (opts.Items.map MenuItem.display))
  match (← nextInput) with
  | UserInput.press i =>
    match opts.Items.get? i with
    | some item => item.OnPress
    | none => pure none
  | _ => pure none

/-- Modelled from the spec: `addWaitingStatus(label) -> id` of the status
manager, whose code is outside these two files: registers a new active status under
a fresh id and returns the id. -/
def addWaitingStatus (label : String) : M Nat :=
  modifyGet fun w =>
    (w.nextStatusId,
      { w with
        statuses := w.statuses ++ [(w.nextStatusId, label)]
        nextStatusId := w.nextStatusId + 1
        trace := w.trace ++ [Event.AddWaitingStatus w.nextStatusId label] })

/-- Modelled from the spec: `removeStatus(id)` of the status manager, whose code
is outside these two files: removes the entry; a no-op on the registry if the id is
not active. -/
def removeStatus (id : Nat) : M Unit :=
  modify fun w =>
    { w with
      statuses := w.statuses.filter fun s => s.1 != id
      trace := w.trace ++ [Event.RemoveStatus id] }

/-- Modelled from the spec: `WithWaitingStatus`, whose code is outside these
two files: a waiting status with the label is registered, the function runs under
it, the status is removed on every exit path, and a failure of the function
propagates to the caller. -/
def WithWaitingStatus (message : String) (f : M Error) : M Error := do
  let id ← addWaitingStatus message
  let r ← f
  removeStatus id
  pure r

/-- The call `self.LogAction(action)`. -/
def LogAction (action : String) : M Unit := emit (Event.LogAction action)

/-- A call to the command executor. -/
def git (env : Env) (call : GitCall) : M Error := do
  emit (Event.Git call)
  pure (env.gitResult call)

/-- The call `self.Error(err)` to the error sink. -/
def Error.sink (env : Env) (err : Err) : M Error := do
  emit (Event.Error err)
  pure (env.ErrorResult err)

/-- The call `self.Refresh(opts)`. -/
def Refresh (env : Env) (opts : RefreshOptions) : M Error := do
  emit (Event.Refresh opts)
  pure (env.RefreshResult opts)

/-- The call `gui.SurfaceError(err)`. -/
def SurfaceError (env : Env) (err : Err) : M Error := do
  emit (Event.SurfaceError err)
  pure (env.SurfaceErrorResult err)

/-- The call `gui.CreateErrorPanel(msg)`. -/
def CreateErrorPanel (env : Env) (msg : String) : M Error := do
  emit (Event.CreateErrorPanel msg)
  pure (env.CreateErrorPanelResult msg)

/-! ## `pkg/gui/controllers/submodules_controller.go` -/

/-- The struct `types.Binding`. -/
structure Binding where
  Key : String
  Handler : M Error
  Description : String
  OpensMenu : Bool := false

/-- The method `SubmodulesController.forSubmodule`. -/
def forSubmodule (env : Env) (callback : SubmoduleConfig → M Error) : M Error := do
  let submodule := env.getSelectedSubmodule (← get)
  match submodule with
  | none => pure none
  | some submodule => callback submodule

/-- The method `SubmodulesController.Enter`. -/
def Enter (env : Env) (submodule : SubmoduleConfig) : M Error :=
  env.enterSubmoduleFn submodule

/-- The method `SubmodulesController.FileForSubmodule`: the first file of the
index that is a submodule for the singleton list of this submodule. -/
def FileForSubmodule (env : Env) (submodule : SubmoduleConfig) : Option File :=
  env.GetAllFiles.find? fun file => env.IsSubmodule file [submodule]

/-- The method `SubmodulesController.resetSubmodule`. -/
def resetSubmodule (env : Env) (submodule : SubmoduleConfig) : M Error := do
  LogAction env.Tr.ActionsResetSubmodule
  let unstage : M Error :=
    match FileForSubmodule env submodule with
    | some file => git env (GitCall.WorkingTreeUnStageFile file.Names file.Tracked)
    | none => pure none
  match (← unstage) with
  | some err => Error.sink env err
  | none =>
    match (← git env (GitCall.SubmoduleStash submodule)) with
    | some err => Error.sink env err
    | none =>
      match (← git env (GitCall.SubmoduleReset submodule)) with
      | some err => Error.sink env err
      | none =>
        Refresh env { Mode := RefreshMode.ASYNC,
                      Scope := [RefreshableView.FILES, RefreshableView.SUBMODULES] }

/-- The method `SubmodulesController.Reset`. -/
def Reset (env : Env) (submodule : SubmoduleConfig) : M Error :=
  WithWaitingStatus env.Tr.LcResettingSubmoduleStatus (resetSubmodule env submodule)

/-- The function passed to `WithWaitingStatus` by `HandleAddSubmodule`. -/
def addSubmoduleAction (env : Env) (submoduleName submodulePath submoduleUrl : String) :
    M Error := do
  LogAction env.Tr.ActionsAddSubmodule
  let err ← git env (GitCall.SubmoduleAdd submoduleName submodulePath submoduleUrl)
  match err with
  | some err => let _ ← Error.sink env err
  | none => pure ()
  Refresh env { Scope := [RefreshableView.SUBMODULES] }

/-- The method `SubmodulesController.HandleAddSubmodule`. -/
def HandleAddSubmodule (env : Env) : M Error :=
  Prompt {
    Title := env.Tr.LcNewSubmoduleUrl
    HandleConfirm := fun submoduleUrl =>
      let nameSuggestion := Base (TrimSuffix submoduleUrl (Ext submoduleUrl))
      Prompt {
        Title := env.Tr.LcNewSubmoduleName
        InitialContent := nameSuggestion
        HandleConfirm := fun submoduleName =>
          Prompt {
            Title := env.Tr.LcNewSubmodulePath
            InitialContent := submoduleName
            HandleConfirm := fun submodulePath =>
              WithWaitingStatus env.Tr.LcAddingSubmoduleStatus
                (addSubmoduleAction env submoduleName submodulePath submoduleUrl) } } }

/-- The method `SubmodulesController.EditURL`. -/
def EditURL (env : Env) (submodule : SubmoduleConfig) : M Error :=
  Prompt {
    Title := env.Sprintf env.Tr.LcUpdateSubmoduleUrl [submodule.Name]
    InitialContent := submodule.Url
    HandleConfirm := fun newUrl =>
      WithWaitingStatus env.Tr.LcUpdatingSubmoduleUrlStatus do
        LogAction env.Tr.ActionsUpdateSubmoduleUrl
        let err ← git env (GitCall.SubmoduleUpdateUrl submodule.Name submodule.Path newUrl)
        match err with
        | some err => let _ ← Error.sink env err
        | none => pure ()
        Refresh env { Scope := [RefreshableView.SUBMODULES] } }

/-- The method `SubmodulesController.Init`. -/
def Init (env : Env) (submodule : SubmoduleConfig) : M Error :=
  WithWaitingStatus env.Tr.LcInitializingSubmoduleStatus do
    LogAction env.Tr.ActionsInitialiseSubmodule
    let err ← git env (GitCall.SubmoduleInit submodule.Path)
    match err with
    | some err => let _ ← Error.sink env err
    | none => pure ()
    Refresh env { Scope := [RefreshableView.SUBMODULES] }

/-- The method `SubmodulesController.Update`. -/
def Update (env : Env) (submodule : SubmoduleConfig) : M Error :=
  WithWaitingStatus env.Tr.LcUpdatingSubmoduleStatus do
    LogAction env.Tr.ActionsUpdateSubmodule
    let err ← git env (GitCall.SubmoduleUpdate submodule.Path)
    match err with
    | some err => let _ ← Error.sink env err
    | none => pure ()
    Refresh env { Scope := [RefreshableView.SUBMODULES] }

/-- The method `SubmodulesController.removeSubmodule`. -/
def removeSubmodule (env : Env) (submodule : SubmoduleConfig) : M Error :=
  Ask {
    Title := env.Tr.RemoveSubmodule
    Prompt := env.Sprintf env.Tr.RemoveSubmodulePrompt [submodule.Name]
    HandleConfirm := do
      LogAction env.Tr.ActionsRemoveSubmodule
      match (← git env (GitCall.SubmoduleDelete submodule)) with
      | some err => Error.sink env err
      | none =>
        Refresh env { Scope := [RefreshableView.SUBMODULES, RefreshableView.FILES] } }

/-- The method `SubmodulesController.OpenResetMenu`. -/
def OpenResetMenu (env : Env) (submodule : SubmoduleConfig) : M Error :=
  Menu {
    Title := submodule.Name
    Items := [
      { DisplayString := env.Tr.LcSubmoduleStashAndReset
        OnPress := resetSubmodule env submodule },
      { DisplayString := env.Tr.LcRemoveSubmodule
        OnPress := removeSubmodule env submodule } ] }

/-- The body shared by the four bulk menu items of `OpenBulkActionsMenu`: log
the action, run the bulk command, and on failure return what the error sink
returns, otherwise refresh the submodules. -/
def bulkAction (env : Env) (action : String) (call : GitCall) : M Error :=
  WithWaitingStatus env.Tr.LcRunningCommand do
    LogAction action
    match (← git env call) with
    | some err => Error.sink env err
    | none => Refresh env { Scope := [RefreshableView.SUBMODULES] }

/-- The method `SubmodulesController.OpenBulkActionsMenu`. -/
def OpenBulkActionsMenu (env : Env) : M Error :=
  Menu {
    Title := env.Tr.LcBulkSubmoduleOptions
    Items := [
      { DisplayStrings :=
          [env.Tr.LcBulkInitSubmodules, env.Sprint Color.FgGreen env.BulkInitCmdString]
        OnPress := bulkAction env env.Tr.ActionsBulkInitialiseSubmodules GitCall.BulkInitRun },
      { DisplayStrings :=
          [env.Tr.LcBulkUpdateSubmodules, env.Sprint Color.FgYellow env.BulkUpdateCmdString]
        OnPress := bulkAction env env.Tr.ActionsBulkUpdateSubmodules GitCall.BulkUpdateRun },
      { DisplayStrings :=
          [env.Tr.LcSubmoduleStashAndReset,
            env.Sprint Color.FgRed
              (env.Sprintf "git stash in each submodule && %s" [env.ForceBulkUpdateCmdString])]
        OnPress := bulkAction env env.Tr.ActionsBulkStashAndResetSubmodules
          (GitCall.SubmoduleResetSubmodules env.submodules) },
      { DisplayStrings :=
          [env.Tr.LcBulkDeinitSubmodules, env.Sprint Color.FgRed env.BulkDeinitCmdString]
        OnPress := bulkAction env env.Tr.ActionsBulkDeinitialiseSubmodules
          GitCall.BulkDeinitRun } ] }

/-- The method `SubmodulesController.Keybindings`. -/
def Keybindings (env : Env) (getKey : String → String) (config : KeybindingConfig) :
    List Binding := [
  { Key := getKey config.UniversalGoInto
    Handler := forSubmodule env (Enter env)
    Description := env.Tr.LcEnterSubmodule },
  { Key := getKey config.UniversalRemove
    Handler := forSubmodule env (OpenResetMenu env)
    Description := env.Tr.LcViewResetAndRemoveOptions
    OpensMenu := true },
  { Key := getKey config.SubmodulesUpdate
    Handler := forSubmodule env (Update env)
    Description := env.Tr.LcSubmoduleUpdate },
  { Key := getKey config.UniversalNew
    Handler := HandleAddSubmodule env
    Description := env.Tr.LcAddSubmodule },
  { Key := getKey config.UniversalEdit
    Handler := forSubmodule env (EditURL env)
    Description := env.Tr.LcEditSubmoduleUrl },
  { Key := getKey config.SubmodulesInit
    Handler := forSubmodule env (Init env)
    Description := env.Tr.LcInitSubmodule },
  { Key := getKey config.SubmodulesBulkMenu
    Handler := OpenBulkActionsMenu env
    Description := env.Tr.LcViewBulkSubmoduleOptions
    OpensMenu := true } ]

/-! ## `pkg/gui/updates.go` -/

/-- The method `Gui.startUpdating`. The callback handed to the updater is
`onUpdateFinish` closed over `statusId`; the trace records that id with the
call, and the updater invokes the callback when the update ends. -/
def startUpdating (newVersion : String) : M Unit := do
  modify fun w => { w with Updating := true }
  let statusId ← addWaitingStatus "updating"
  emit (Event.UpdaterUpdate newVersion statusId)

/-- The method `Gui.onUpdateFinish`. -/
def onUpdateFinish (env : Env) (statusId : Nat) (err : Error) : M Error := do
  modify fun w => { w with Updating := false }
  removeStatus statusId
  emit (Event.RenderAppStatus "")
  match err with
  | some err => CreateErrorPanel env ("Update failed: " ++ err.Error)
  | none => pure none

/-- The method `Gui.showUpdatePrompt`. -/
def showUpdatePrompt (env : Env) (newVersion : String) : M Error :=
  Ask {
    Title := "New version available!"
    Prompt := env.Sprintf "Download version %s? (enter/esc)" [newVersion]
    HandleConfirm := do
      startUpdating newVersion
      pure none }

/-- The method `Gui.onUserUpdateCheckFinish`. -/
def onUserUpdateCheckFinish (env : Env) (newVersion : String) (err : Error) : M Error :=
  match err with
  | some err => SurfaceError env err
  | none =>
    if newVersion = "" then CreateErrorPanel env "New version not found"
    else showUpdatePrompt env newVersion

/-- The method `Gui.onBackgroundUpdateCheckFinish`. -/
def onBackgroundUpdateCheckFinish (env : Env) (newVersion : String) (err : Error) :
    M Error :=
  match err with
  | some err => do
    emit (Event.LogError err.Error)
    pure none
  | none =>
    if newVersion = "" then pure none
    else if env.UpdateMethod = "background" then do
      startUpdating newVersion
      pure none
    else showUpdatePrompt env newVersion

/-- The method `Gui.createUpdateQuitConfirmation`. -/
def createUpdateQuitConfirmation : M Error :=
  Ask {
    Title := "Currently Updating"
    Prompt := "An update is in progress. Are you sure you want to quit?"
    HandleConfirm := pure (some Err.ErrQuit) }

/-! ## Observing a run -/

/-- Run an effectful function from a world: its return value and the world it
leaves. -/
def runM {α : Type} (m : M α) (w : World) : α × World := m w

/-- The events a run from `w` to `w1` appended to the trace. -/
def newEvents (w w1 : World) : List Event := w1.trace.drop w.trace.length

/-- The event is a call to the command executor. -/
def Event.isGit : Event → Bool
  | Event.Git _ => true
  | _ => false

/-- The event is a refresh request. -/
def Event.isRefresh : Event → Bool
  | Event.Refresh _ => true
  | _ => false

/-- The event registers a waiting status. -/
def Event.isAddWaitingStatus : Event → Bool
  | Event.AddWaitingStatus _ _ => true
  | _ => false

/-- The user reaction submits a text, so that a prompt runs `HandleConfirm`. -/
def UserInput.isSubmit : UserInput → Bool
  | UserInput.submit _ => true
  | _ => false

/-- How many prompts of a chain the script confirms before the first prompt
that is not confirmed. -/
def confirmedSteps (inputs : List UserInput) : Nat :=
  (inputs.takeWhile UserInput.isSubmit).length

/-- Every call to the command executor and every refresh request in the event
list happens while a waiting status with the given label is active. `active`
is the registry built by the events read so far. -/
def underStatus (label : String) : List (Nat × String) → List Event → Bool
  | _, [] => true
  | active, Event.AddWaitingStatus id l :: es => underStatus label (active ++ [(id, l)]) es
  | active, Event.RemoveStatus id :: es =>
    underStatus label (active.filter fun s => s.1 != id) es
  | active, Event.Git _ :: es =>
    (active.any fun s => s.2 == label) && underStatus label active es
  | active, Event.Refresh _ :: es =>
    (active.any fun s => s.2 == label) && underStatus label active es
  | active, _ :: es => underStatus label active es

/-- The run of an operation from `w` only appends to the trace, and every call
to the command executor and every refresh request among the events it appends
happens while a waiting status with the given label, registered by the run
itself, is active. -/
def runsUnderStatus (label : String) (m : M Error) (w : World) : Bool :=
  decide ((runM m w).2.trace = w.trace ++ newEvents w (runM m w).2) &&
    underStatus label [] (newEvents w (runM m w).2)

/-- The events of the error sink after a call to the command executor that
returned `err`: one call with the error if it is not `nil`, none otherwise. -/
def errorEvents : Error → List Event
  | some err => [Event.Error err]
  | none => []

/-- The calls `resetSubmodule` makes to the command executor when none fails:
the unstage of the file found for the submodule, if one is found, then the
stash, then the reset. -/
def resetCalls (env : Env) (submodule : SubmoduleConfig) : List GitCall :=
  (match FileForSubmodule env submodule with
    | some file => [GitCall.WorkingTreeUnStageFile file.Names file.Tracked]
    | none => []) ++
  [GitCall.SubmoduleStash submodule, GitCall.SubmoduleReset submodule]

/-- The menu event of `OpenBulkActionsMenu`: its title and the strings its four
items display. -/
def bulkMenuEvent (env : Env) : Event :=
  Event.Menu env.Tr.LcBulkSubmoduleOptions
    [[env.Tr.LcBulkInitSubmodules, env.Sprint Color.FgGreen env.BulkInitCmdString],
      [env.Tr.LcBulkUpdateSubmodules, env.Sprint Color.FgYellow env.BulkUpdateCmdString],
      [env.Tr.LcSubmoduleStashAndReset,
        env.Sprint Color.FgRed
          (env.Sprintf "git stash in each submodule && %s" [env.ForceBulkUpdateCmdString])],
      [env.Tr.LcBulkDeinitSubmodules, env.Sprint Color.FgRed env.BulkDeinitCmdString]]

/-- The command run by the bulk menu item with the given index. -/
def bulkCall (env : Env) : Nat → GitCall
  | 0 => GitCall.BulkInitRun
  | 1 => GitCall.BulkUpdateRun
  | 2 => GitCall.SubmoduleResetSubmodules env.submodules
  | _ => GitCall.BulkDeinitRun

/-- The action logged by the bulk menu item with the given index. -/
def bulkLabel (env : Env) : Nat → String
  | 0 => env.Tr.ActionsBulkInitialiseSubmodules
  | 1 => env.Tr.ActionsBulkUpdateSubmodules
  | 2 => env.Tr.ActionsBulkStashAndResetSubmodules
  | _ => env.Tr.ActionsBulkDeinitialiseSubmodules

/-! ## Concrete inputs -/

/-- A translation set whose strings are the names of the keys. -/
def demoTr : TranslationSet where
  LcEnterSubmodule := "LcEnterSubmodule"
  LcViewResetAndRemoveOptions := "LcViewResetAndRemoveOptions"
  LcSubmoduleUpdate := "LcSubmoduleUpdate"
  LcAddSubmodule := "LcAddSubmodule"
  LcEditSubmoduleUrl := "LcEditSubmoduleUrl"
  LcInitSubmodule := "LcInitSubmodule"
  LcViewBulkSubmoduleOptions := "LcViewBulkSubmoduleOptions"
  LcResettingSubmoduleStatus := "LcResettingSubmoduleStatus"
  LcNewSubmoduleUrl := "LcNewSubmoduleUrl"
  LcNewSubmoduleName := "LcNewSubmoduleName"
  LcNewSubmodulePath := "LcNewSubmodulePath"
  LcAddingSubmoduleStatus := "LcAddingSubmoduleStatus"
  LcUpdateSubmoduleUrl := "LcUpdateSubmoduleUrl"
  LcUpdatingSubmoduleUrlStatus := "LcUpdatingSubmoduleUrlStatus"
  LcInitializingSubmoduleStatus := "LcInitializingSubmoduleStatus"
  LcSubmoduleStashAndReset := "LcSubmoduleStashAndReset"
  LcRemoveSubmodule := "LcRemoveSubmodule"
  LcBulkSubmoduleOptions := "LcBulkSubmoduleOptions"
  LcBulkInitSubmodules := "LcBulkInitSubmodules"
  LcBulkUpdateSubmodules := "LcBulkUpdateSubmodules"
  LcBulkDeinitSubmodules := "LcBulkDeinitSubmodules"
  LcRunningCommand := "LcRunningCommand"
  LcUpdatingSubmoduleStatus := "LcUpdatingSubmoduleStatus"
  RemoveSubmodule := "RemoveSubmodule"
  RemoveSubmodulePrompt := "RemoveSubmodulePrompt"
  ActionsAddSubmodule := "AddSubmodule"
  ActionsUpdateSubmoduleUrl := "UpdateSubmoduleUrl"
  ActionsInitialiseSubmodule := "InitialiseSubmodule"
  ActionsBulkInitialiseSubmodules := "BulkInitialiseSubmodules"
  ActionsBulkUpdateSubmodules := "BulkUpdateSubmodules"
  ActionsBulkStashAndResetSubmodules := "BulkStashAndResetSubmodules"
  ActionsBulkDeinitialiseSubmodules := "BulkDeinitialiseSubmodules"
  ActionsUpdateSubmodule := "UpdateSubmodule"
  ActionsRemoveSubmodule := "RemoveSubmodule"
  ActionsResetSubmodule := "ResetSubmodule"

/-- A submodule. -/
def demoSubmodule : SubmoduleConfig := { Name := "bar", Path := "lib/bar", Url := "u" }

/-- An environment in which every command of the executor, every refresh and
every call to an error sink returns `nil`, no submodule is selected, the file
index holds one file, which is the file of every submodule, and the update
method is `prompt`. -/
def demoEnv : Env where
  Tr := demoTr
  Sprintf := fun format _ => format
  Sprint := fun _ text => text
  enterSubmoduleFn := fun _ => pure none
  getSelectedSubmodule := fun _ => none
  submodules := [demoSubmodule]
  GetAllFiles := [{ Names := ["lib/bar"], Tracked := true }]
  IsSubmodule := fun _ _ => true
  gitResult := fun _ => none
  ErrorResult := fun _ => none
  RefreshResult := fun _ => none
  SurfaceErrorResult := fun _ => none
  CreateErrorPanelResult := fun _ => none
  UpdateMethod := "prompt"
  BulkInitCmdString := "git submodule init"
  BulkUpdateCmdString := "git submodule update"
  ForceBulkUpdateCmdString := "git submodule update --force"
  BulkDeinitCmdString := "git submodule deinit --all --force"

/-- The environment `demoEnv` with a command executor that fails every call
with the error `boom`. -/
def failingEnv : Env := { demoEnv with gitResult := fun _ => some (Err.other "boom") }

/-- The environment `demoEnv` with a command executor in which only the stash
of a submodule fails, with the error `stash failed`. -/
def stashFailingEnv : Env :=
  { demoEnv with
    gitResult := fun call =>
      match call with
      | GitCall.SubmoduleStash _ => some (Err.other "stash failed")
      | _ => none }

/-- The environment `demoEnv` in which `demoSubmodule` is selected. -/
def selectedEnv : Env := { demoEnv with getSelectedSubmodule := fun _ => some demoSubmodule }

/-- The environment `demoEnv` with the update method `background`. -/
def backgroundEnv : Env := { demoEnv with UpdateMethod := "background" }

/-- The world at start-up with a script of user reactions: empty trace, no
status, no update in progress. -/
def startWorld (inputs : List UserInput) : World :=
  { inputs := inputs, trace := [], statuses := [], nextStatusId := 0, Updating := false }

/-! ## Running the collaborators -/

@[simp]
theorem runM_pure {α : Type} (a : α) (w : World) : runM (pure a) w = (a, w) := rfl

@[simp]
theorem runM_bind {α β : Type} (m : M α) (f : α → M β) (w : World) :
    runM (m >>= f) w = runM (f (runM m w).1) (runM m w).2 := rfl

@[simp]
theorem runM_map {α β : Type} (m : M α) (f : α → β) (w : World) :
    runM (f <$> m) w = (f (runM m w).1, (runM m w).2) := rfl

@[simp]
theorem runM_get (w : World) : runM (get : M World) w = (w, w) := rfl

@[simp]
theorem runM_modify (f : World → World) (w : World) :
    runM (modify f : M PUnit) w = (PUnit.unit, f w) := rfl

@[simp]
theorem runM_emit (e : Event) (w : World) :
    runM (emit e) w = ((), { w with trace := w.trace ++ [e] }) := rfl

@[simp]
theorem runM_LogAction (action : String) (w : World) :
    runM (LogAction action) w = ((), { w with trace := w.trace ++ [Event.LogAction action] }) :=
  rfl

@[simp]
theorem runM_addWaitingStatus (label : String) (w : World) :
    runM (addWaitingStatus label) w =
      (w.nextStatusId,
        { w with
          statuses := w.statuses ++ [(w.nextStatusId, label)]
          nextStatusId := w.nextStatusId + 1
          trace := w.trace ++ [Event.AddWaitingStatus w.nextStatusId label] }) := rfl

@[simp]
theorem runM_removeStatus (id : Nat) (w : World) :
    runM (removeStatus id) w =
      ((), { w with
        statuses := w.statuses.filter fun s => s.1 != id
        trace := w.trace ++ [Event.RemoveStatus id] }) := rfl

@[simp]
theorem runM_git (env : Env) (call : GitCall) (w : World) :
    runM (git env call) w =
      (env.gitResult call, { w with trace := w.trace ++ [Event.Git call] }) := rfl

@[simp]
theorem runM_Error_sink (env : Env) (err : Err) (w : World) :
    runM (Error.sink env err) w =
      (env.ErrorResult err, { w with trace := w.trace ++ [Event.Error err] }) := rfl

@[simp]
theorem runM_Refresh (env : Env) (opts : RefreshOptions) (w : World) :
    runM (Refresh env opts) w =
      (env.RefreshResult opts, { w with trace := w.trace ++ [Event.Refresh opts] }) := rfl

@[simp]
theorem runM_SurfaceError (env : Env) (err : Err) (w : World) :
    runM (SurfaceError env err) w =
      (env.SurfaceErrorResult err, { w with trace := w.trace ++ [Event.SurfaceError err] }) :=
  rfl

@[simp]
theorem runM_CreateErrorPanel (env : Env) (msg : String) (w : World) :
    runM (CreateErrorPanel env msg) w =
      (env.CreateErrorPanelResult msg,
        { w with trace := w.trace ++ [Event.CreateErrorPanel msg] }) := rfl

theorem runM_nextInput (w : World) :
    runM nextInput w =
      match w.inputs with
      | [] => (UserInput.cancel, w)
      | i :: rest => (i, { w with inputs := rest }) := by
  cases h : w.inputs <;>
    simp [runM, nextInput, modifyGet, MonadStateOf.modifyGet, StateT.modifyGet, h, pure]

/-- A prompt whose text the user submits runs `HandleConfirm` on the text. -/
theorem runM_Prompt_submit (opts : PromptOpts) (w : World) (text : String)
    (rest : List UserInput) (h : w.inputs = UserInput.submit text :: rest) :
    runM (Prompt opts) w =
      runM (opts.HandleConfirm text)
        { w with
          inputs := rest
          trace := w.trace ++ [Event.Prompt opts.Title opts.InitialContent] } := by
  simp [Prompt, runM_nextInput, h]

/-- A prompt the user does not submit invokes no callback and returns `nil`. -/
theorem runM_Prompt_cancel (opts : PromptOpts) (w : World)
    (h : confirmedSteps w.inputs = 0) :
    runM (Prompt opts) w =
      (none,
        { w with
          inputs := w.inputs.tail
          trace := w.trace ++ [Event.Prompt opts.Title opts.InitialContent] }) := by
  obtain ⟨inputs, trace, statuses, nid, upd⟩ := w
  cases inputs with
  | nil => simp [Prompt, runM_nextInput]
  | cons i rest => cases i <;> simp_all [Prompt, runM_nextInput, confirmedSteps, UserInput.isSubmit]

/-- A confirmation the user accepts runs `HandleConfirm`. -/
theorem runM_Ask_yes (opts : AskOpts) (w : World) (rest : List UserInput)
    (h : w.inputs = UserInput.yes :: rest) :
    runM (Ask opts) w =
      runM opts.HandleConfirm
        { w with inputs := rest, trace := w.trace ++ [Event.Ask opts.Title opts.Prompt] } := by
  simp [Ask, runM_nextInput, h]

/-- A confirmation the user does not accept invokes no callback and returns
`nil`. -/
theorem runM_Ask_decline (opts : AskOpts) (w : World)
    (h : w.inputs.head? ≠ some UserInput.yes) :
    runM (Ask opts) w =
      (none,
        { w with
          inputs := w.inputs.tail
          trace := w.trace ++ [Event.Ask opts.Title opts.Prompt] }) := by
  obtain ⟨inputs, trace, statuses, nid, upd⟩ := w
  cases inputs with
  | nil => simp [Ask, runM_nextInput]
  | cons i rest => cases i <;> simp_all [Ask, runM_nextInput]

/-- A menu of which the user presses an item runs the `OnPress` of the item. -/
theorem runM_Menu_press (opts : CreateMenuOptions) (w : World) (i : Nat) (item : MenuItem)
    (rest : List UserInput) (h : w.inputs = UserInput.press i :: rest)
    (hi : opts.Items.get? i = some item) :
    runM (Menu opts) w =
      runM item.OnPress
        { w with
          inputs := rest
          trace := w.trace ++ [Event.Menu opts.Title (opts.Items.map MenuItem.display)] } := by
  simp [Menu, runM_nextInput, h]
  rw [List.get?_eq_getElem?] at hi
  simp [hi]

/-! ## The add-submodule prompt chain, step by step -/

theorem confirmedSteps_cases (inputs : List UserInput) :
    confirmedSteps inputs = 0 ∨
      ∃ text rest, inputs = UserInput.submit text :: rest ∧
        confirmedSteps inputs = confirmedSteps rest + 1 := by
  rcases inputs with _ | ⟨(_ | text | _ | _), rest⟩
  · simp [confirmedSteps]
  · simp [confirmedSteps, UserInput.isSubmit]
  · exact Or.inr ⟨text, rest, rfl, by simp [confirmedSteps, UserInput.isSubmit]⟩
  · simp [confirmedSteps, UserInput.isSubmit]
  · simp [confirmedSteps, UserInput.isSubmit]

/-- The URL prompt is not confirmed. -/
theorem HandleAddSubmodule_step1 (env : Env) (w : World) (h : confirmedSteps w.inputs = 0) :
    runM (HandleAddSubmodule env) w =
      (none,
        { w with
          inputs := w.inputs.tail
          trace := w.trace ++ [Event.Prompt env.Tr.LcNewSubmoduleUrl ""] }) := by
  rw [HandleAddSubmodule, runM_Prompt_cancel _ _ h]

/-- The URL prompt is confirmed and the name prompt is not. -/
theorem HandleAddSubmodule_step2 (env : Env) (w : World) (url : String) (rest : List UserInput)
    (h : w.inputs = UserInput.submit url :: rest) (hr : confirmedSteps rest = 0) :
    runM (HandleAddSubmodule env) w =
      (none,
        { w with
          inputs := rest.tail
          trace := w.trace ++
            [Event.Prompt env.Tr.LcNewSubmoduleUrl "",
              Event.Prompt env.Tr.LcNewSubmoduleName (Base (TrimSuffix url (Ext url)))] }) := by
  rw [HandleAddSubmodule, runM_Prompt_submit _ _ url rest h]
  simp only []
  rw [runM_Prompt_cancel _ _ hr]
  simp

/-- The URL and name prompts are confirmed and the path prompt is not. -/
theorem HandleAddSubmodule_step3 (env : Env) (w : World) (url name : String)
    (rest : List UserInput)
    (h : w.inputs = UserInput.submit url :: UserInput.submit name :: rest)
    (hr : confirmedSteps rest = 0) :
    runM (HandleAddSubmodule env) w =
      (none,
        { w with
          inputs := rest.tail
          trace := w.trace ++
            [Event.Prompt env.Tr.LcNewSubmoduleUrl "",
              Event.Prompt env.Tr.LcNewSubmoduleName (Base (TrimSuffix url (Ext url))),
              Event.Prompt env.Tr.LcNewSubmodulePath name] }) := by
  rw [HandleAddSubmodule, runM_Prompt_submit _ _ url _ h]
  simp only []
  rw [runM_Prompt_submit _ _ name rest rfl]
  simp only []
  rw [runM_Prompt_cancel _ _ hr]
  simp

/-- The three prompts are confirmed. -/
theorem HandleAddSubmodule_confirmed (env : Env) (w : World) (url name path : String)
    (rest : List UserInput)
    (h : w.inputs =
      UserInput.submit url :: UserInput.submit name :: UserInput.submit path :: rest) :
    runM (HandleAddSubmodule env) w =
      (env.RefreshResult { Scope := [RefreshableView.SUBMODULES] },
        { w with
          inputs := rest
          statuses := (w.statuses ++ [(w.nextStatusId, env.Tr.LcAddingSubmoduleStatus)]).filter
            fun s => s.1 != w.nextStatusId
          nextStatusId := w.nextStatusId + 1
          trace := w.trace ++
            ([Event.Prompt env.Tr.LcNewSubmoduleUrl "",
              Event.Prompt env.Tr.LcNewSubmoduleName (Base (TrimSuffix url (Ext url))),
              Event.Prompt env.Tr.LcNewSubmodulePath name,
              Event.AddWaitingStatus w.nextStatusId env.Tr.LcAddingSubmoduleStatus,
              Event.LogAction env.Tr.ActionsAddSubmodule,
              Event.Git (GitCall.SubmoduleAdd name path url)] ++
             errorEvents (env.gitResult (GitCall.SubmoduleAdd name path url)) ++
             [Event.Refresh { Scope := [RefreshableView.SUBMODULES] },
              Event.RemoveStatus w.nextStatusId]) }) := by
  rw [HandleAddSubmodule, runM_Prompt_submit _ _ url _ h]
  simp only []
  rw [runM_Prompt_submit _ _ name _ rfl]
  simp only []
  rw [runM_Prompt_submit _ _ path rest rfl]
  cases hg : env.gitResult (GitCall.SubmoduleAdd name path url) <;>
    simp [WithWaitingStatus, addSubmoduleAction, hg, errorEvents]

/-! ## The name suggestion on a URL with a directory, a stem and an extension -/

theorem ExtLoop_dot (l rest seen : List Char) (h : ∀ c ∈ l, c ≠ '/' ∧ c ≠ '.') :
    ExtLoop (l ++ '.' :: rest) seen = '.' :: (l.reverse ++ seen) := by
  induction l generalizing seen with
  | nil => simp [ExtLoop, IsPathSeparator]
  | cons c l ih =>
    have hc := h c (List.mem_cons_self _ _)
    have hl : ∀ c ∈ l, c ≠ '/' ∧ c ≠ '.' := fun d hd => h d (List.mem_cons_of_mem _ hd)
    simp [ExtLoop, IsPathSeparator, hc.1, hc.2, ih _ hl]

theorem Ext_of_parts (pre ext : List Char) (h : ∀ c ∈ ext, c ≠ '/' ∧ c ≠ '.') :
    Ext (String.mk (pre ++ '.' :: ext)) = String.mk ('.' :: ext) := by
  have := ExtLoop_dot ext.reverse pre.reverse [] (by simpa using h)
  simp [Ext, this]

theorem TrimSuffix_append (pre suf : List Char) :
    TrimSuffix (String.mk (pre ++ suf)) (String.mk suf) = String.mk pre := by
  simp [TrimSuffix]

theorem takeWhile_notSeparator (l rest : List Char) (h : ∀ c ∈ l, c ≠ '/') :
    (l ++ '/' :: rest).takeWhile (fun c => !IsPathSeparator c) = l := by
  induction l with
  | nil => simp [IsPathSeparator]
  | cons c l ih =>
    have hc := h c (List.mem_cons_self _ _)
    have hl : ∀ c ∈ l, c ≠ '/' := fun d hd => h d (List.mem_cons_of_mem _ hd)
    have := ih hl
    simp only [IsPathSeparator] at this
    simp [IsPathSeparator, hc, this]

theorem Base_of_parts (dir stem : List Char) (hs : stem ≠ []) (h : ∀ c ∈ stem, c ≠ '/') :
    Base (String.mk (dir ++ '/' :: stem)) = String.mk stem := by
  have hne : String.mk (dir ++ '/' :: stem) ≠ "" := by
    intro hcon
    have := congrArg String.data hcon
    simp at this
  have hrev : ∀ c ∈ stem.reverse, c ≠ '/' := by simpa using h
  have hdrop : (stem.reverse ++ '/' :: dir.reverse).dropWhile IsPathSeparator =
      stem.reverse ++ '/' :: dir.reverse := by
    cases hr : stem.reverse with
    | nil => simp at hr; exact absurd hr hs
    | cons c t =>
      have hc : c ≠ '/' := hrev c (by simp [hr])
      simp [IsPathSeparator, hc]
  simp only [Base, hne, if_false, List.reverse_append, List.reverse_cons, List.append_assoc,
    List.singleton_append, hdrop, takeWhile_notSeparator _ _ hrev, List.reverse_reverse]
  simp [hs]

theorem suggestion_of_parts (dir stem ext : List Char) (hs : stem ≠ [])
    (hstem : ∀ c ∈ stem, c ≠ '/') (hext : ∀ c ∈ ext, c ≠ '/' ∧ c ≠ '.') :
    Base (TrimSuffix (String.mk (dir ++ '/' :: stem ++ '.' :: ext))
      (Ext (String.mk (dir ++ '/' :: stem ++ '.' :: ext)))) = String.mk stem := by
  rw [Ext_of_parts _ _ hext, TrimSuffix_append]
  exact Base_of_parts dir stem hs hstem

/-! ## The operations that run under a waiting status -/

theorem Init_run (env : Env) (submodule : SubmoduleConfig) (w : World) :
    runM (Init env submodule) w =
      (env.RefreshResult { Scope := [RefreshableView.SUBMODULES] },
        { w with
          statuses :=
            (w.statuses ++ [(w.nextStatusId, env.Tr.LcInitializingSubmoduleStatus)]).filter
              fun s => s.1 != w.nextStatusId
          nextStatusId := w.nextStatusId + 1
          trace := w.trace ++
            ([Event.AddWaitingStatus w.nextStatusId env.Tr.LcInitializingSubmoduleStatus,
              Event.LogAction env.Tr.ActionsInitialiseSubmodule,
              Event.Git (GitCall.SubmoduleInit submodule.Path)] ++
             errorEvents (env.gitResult (GitCall.SubmoduleInit submodule.Path)) ++
             [Event.Refresh { Scope := [RefreshableView.SUBMODULES] },
              Event.RemoveStatus w.nextStatusId]) }) := by
  cases hg : env.gitResult (GitCall.SubmoduleInit submodule.Path) <;>
    simp [Init, WithWaitingStatus, hg, errorEvents]

theorem Update_run (env : Env) (submodule : SubmoduleConfig) (w : World) :
    runM (Update env submodule) w =
      (env.RefreshResult { Scope := [RefreshableView.SUBMODULES] },
        { w with
          statuses :=
            (w.statuses ++ [(w.nextStatusId, env.Tr.LcUpdatingSubmoduleStatus)]).filter
              fun s => s.1 != w.nextStatusId
          nextStatusId := w.nextStatusId + 1
          trace := w.trace ++
            ([Event.AddWaitingStatus w.nextStatusId env.Tr.LcUpdatingSubmoduleStatus,
              Event.LogAction env.Tr.ActionsUpdateSubmodule,
              Event.Git (GitCall.SubmoduleUpdate submodule.Path)] ++
             errorEvents (env.gitResult (GitCall.SubmoduleUpdate submodule.Path)) ++
             [Event.Refresh { Scope := [RefreshableView.SUBMODULES] },
              Event.RemoveStatus w.nextStatusId]) }) := by
  cases hg : env.gitResult (GitCall.SubmoduleUpdate submodule.Path) <;>
    simp [Update, WithWaitingStatus, hg, errorEvents]

theorem EditURL_cancel (env : Env) (submodule : SubmoduleConfig) (w : World)
    (h : confirmedSteps w.inputs = 0) :
    runM (EditURL env submodule) w =
      (none,
        { w with
          inputs := w.inputs.tail
          trace := w.trace ++
            [Event.Prompt (env.Sprintf env.Tr.LcUpdateSubmoduleUrl [submodule.Name])
              submodule.Url] }) := by
  rw [EditURL, runM_Prompt_cancel _ _ h]

theorem EditURL_confirmed (env : Env) (submodule : SubmoduleConfig) (w : World)
    (newUrl : String) (rest : List UserInput) (h : w.inputs = UserInput.submit newUrl :: rest) :
    runM (EditURL env submodule) w =
      (env.RefreshResult { Scope := [RefreshableView.SUBMODULES] },
        { w with
          inputs := rest
          statuses :=
            (w.statuses ++ [(w.nextStatusId, env.Tr.LcUpdatingSubmoduleUrlStatus)]).filter
              fun s => s.1 != w.nextStatusId
          nextStatusId := w.nextStatusId + 1
          trace := w.trace ++
            ([Event.Prompt (env.Sprintf env.Tr.LcUpdateSubmoduleUrl [submodule.Name])
                submodule.Url,
              Event.AddWaitingStatus w.nextStatusId env.Tr.LcUpdatingSubmoduleUrlStatus,
              Event.LogAction env.Tr.ActionsUpdateSubmoduleUrl,
              Event.Git (GitCall.SubmoduleUpdateUrl submodule.Name submodule.Path newUrl)] ++
             errorEvents
               (env.gitResult
                 (GitCall.SubmoduleUpdateUrl submodule.Name submodule.Path newUrl)) ++
             [Event.Refresh { Scope := [RefreshableView.SUBMODULES] },
              Event.RemoveStatus w.nextStatusId]) }) := by
  rw [EditURL, runM_Prompt_submit _ _ newUrl rest h]
  cases hg : env.gitResult (GitCall.SubmoduleUpdateUrl submodule.Name submodule.Path newUrl) <;>
    simp [WithWaitingStatus, hg, errorEvents]

theorem bulkAction_run (env : Env) (action : String) (call : GitCall) (w : World) :
    runM (bulkAction env action call) w =
      ((match env.gitResult call with
        | some err => env.ErrorResult err
        | none => env.RefreshResult { Scope := [RefreshableView.SUBMODULES] }),
        { w with
          statuses :=
            (w.statuses ++ [(w.nextStatusId, env.Tr.LcRunningCommand)]).filter
              fun s => s.1 != w.nextStatusId
          nextStatusId := w.nextStatusId + 1
          trace := w.trace ++
            ([Event.AddWaitingStatus w.nextStatusId env.Tr.LcRunningCommand,
              Event.LogAction action,
              Event.Git call] ++
             (match env.gitResult call with
              | some err => [Event.Error err]
              | none => [Event.Refresh { Scope := [RefreshableView.SUBMODULES] }]) ++
             [Event.RemoveStatus w.nextStatusId]) }) := by
  cases hg : env.gitResult call <;>
    simp [bulkAction, WithWaitingStatus, hg]

theorem OpenBulkActionsMenu_press (env : Env) (w : World) (i : Nat) (rest : List UserInput)
    (hi : i < 4) (h : w.inputs = UserInput.press i :: rest) :
    runM (OpenBulkActionsMenu env) w =
      runM (bulkAction env (bulkLabel env i) (bulkCall env i))
        { w with inputs := rest, trace := w.trace ++ [bulkMenuEvent env] } := by
  rcases i with _ | _ | _ | _ | i
  · simp [OpenBulkActionsMenu, Menu, runM_nextInput, h, bulkMenuEvent, MenuItem.display,
      bulkLabel, bulkCall]
  · simp [OpenBulkActionsMenu, Menu, runM_nextInput, h, bulkMenuEvent, MenuItem.display,
      bulkLabel, bulkCall]
  · simp [OpenBulkActionsMenu, Menu, runM_nextInput, h, bulkMenuEvent, MenuItem.display,
      bulkLabel, bulkCall]
  · simp [OpenBulkActionsMenu, Menu, runM_nextInput, h, bulkMenuEvent, MenuItem.display,
      bulkLabel, bulkCall]
  · omega

theorem runM_Menu_other (opts : CreateMenuOptions) (w : World)
    (h : ∀ i rest, w.inputs = UserInput.press i :: rest → opts.Items.length ≤ i) :
    runM (Menu opts) w =
      (none,
        { w with
          inputs := w.inputs.tail
          trace := w.trace ++ [Event.Menu opts.Title (opts.Items.map MenuItem.display)] }) := by
  obtain ⟨inputs, trace, statuses, nid, upd⟩ := w
  rcases inputs with _ | ⟨(_ | _ | _ | i), rest⟩
  · simp [Menu, runM_nextInput]
  · simp [Menu, runM_nextInput]
  · simp [Menu, runM_nextInput]
  · simp [Menu, runM_nextInput]
  · have hlen := h i rest rfl
    simp [Menu, runM_nextInput, List.getElem?_eq_none hlen]

theorem OpenBulkActionsMenu_other (env : Env) (w : World)
    (h : ∀ i rest, w.inputs = UserInput.press i :: rest → 4 ≤ i) :
    runM (OpenBulkActionsMenu env) w =
      (none, { w with inputs := w.inputs.tail, trace := w.trace ++ [bulkMenuEvent env] }) := by
  rw [OpenBulkActionsMenu, runM_Menu_other _ _ (by simpa using h)]
  rfl

theorem runM_startUpdating (newVersion : String) (w : World) :
    runM (startUpdating newVersion) w =
      ((), { w with
        Updating := true
        statuses := w.statuses ++ [(w.nextStatusId, "updating")]
        nextStatusId := w.nextStatusId + 1
        trace := w.trace ++
          [Event.AddWaitingStatus w.nextStatusId "updating",
            Event.UpdaterUpdate newVersion w.nextStatusId] }) := by
  simp [startUpdating]

/-- The first call of `resetSubmodule` to the command executor that fails ends
the run: the calls before it were made, its error goes to the error sink, and
nothing follows. -/
theorem resetSubmodule_first_failure (env : Env) (submodule : SubmoduleConfig) (w : World)
    (done : List GitCall) (call : GitCall) (later : List GitCall) (err : Err)
    (hsplit : resetCalls env submodule = done ++ call :: later)
    (hdone : ∀ c ∈ done, env.gitResult c = none)
    (hcall : env.gitResult call = some err) :
    runM (resetSubmodule env submodule) w =
      (env.ErrorResult err,
        { w with
          trace := w.trace ++
            ([Event.LogAction env.Tr.ActionsResetSubmodule] ++
              (done ++ [call]).map Event.Git ++
              [Event.Error err]) }) := by
  simp only [resetSubmodule]
  cases hf : FileForSubmodule env submodule with
  | none =>
    simp only [resetCalls, hf] at hsplit
    rcases done with _ | ⟨d1, _ | ⟨d2, done⟩⟩
    · simp at hsplit
      obtain ⟨rfl, rfl⟩ := hsplit
      simp [hcall]
    · simp at hsplit
      obtain ⟨rfl, rfl, rfl⟩ := hsplit
      have h1 := hdone _ (List.mem_cons_self _ _)
      simp [hcall, h1]
    · simp at hsplit
  | some file =>
    simp only [resetCalls, hf] at hsplit
    rcases done with _ | ⟨d1, _ | ⟨d2, _ | ⟨d3, done⟩⟩⟩
    · simp at hsplit
      obtain ⟨rfl, rfl⟩ := hsplit
      simp [hcall]
    · simp at hsplit
      obtain ⟨rfl, rfl, rfl⟩ := hsplit
      have h1 := hdone _ (List.mem_cons_self _ _)
      simp [hcall, h1]
    · simp at hsplit
      obtain ⟨rfl, rfl, rfl, rfl⟩ := hsplit
      have h1 := hdone (GitCall.WorkingTreeUnStageFile file.Names file.Tracked) (by simp)
      have h2 := hdone (GitCall.SubmoduleStash submodule) (by simp)
      simp [hcall, h1, h2]
    · simp at hsplit

theorem runsUnderStatus_iff (label : String) (m : M Error) (w : World) :
    runsUnderStatus label m w = true ↔
      (runM m w).2.trace = w.trace ++ newEvents w (runM m w).2 ∧
        underStatus label [] (newEvents w (runM m w).2) = true := by
  simp [runsUnderStatus]

theorem Reset_underStatus (env : Env) (submodule : SubmoduleConfig) (w : World) :
    runsUnderStatus env.Tr.LcResettingSubmoduleStatus (Reset env submodule) w = true := by
  rw [runsUnderStatus_iff]
  simp only [Reset, WithWaitingStatus, resetSubmodule]
  cases hf : FileForSubmodule env submodule with
  | none =>
    cases hs : env.gitResult (GitCall.SubmoduleStash submodule) <;>
    cases hr : env.gitResult (GitCall.SubmoduleReset submodule) <;>
    simp [hs, hr, newEvents, underStatus]
  | some file =>
    cases hu : env.gitResult (GitCall.WorkingTreeUnStageFile file.Names file.Tracked) <;>
    cases hs : env.gitResult (GitCall.SubmoduleStash submodule) <;>
    cases hr : env.gitResult (GitCall.SubmoduleReset submodule) <;>
    simp [hu, hs, hr, newEvents, underStatus]

/-! ## Claims -/

/-- C10: the handler `forSubmodule callback`, run while no submodule is
selected, returns `nil` and leaves the world as it is, the callback not being
invoked; run while a submodule `s` is selected, it is exactly `callback s`.
In `Keybindings` the handlers of enter, reset menu, update, edit-URL and init
are `forSubmodule` of the command, so each of them does nothing without a
selection. -/
theorem forSubmodule_selection (env : Env) (callback : SubmoduleConfig → M Error)
    (w : World) (getKey : String → String) (config : KeybindingConfig) :
    (env.getSelectedSubmodule w = none →
      runM (forSubmodule env callback) w = (none, w)) ∧
    (∀ s, env.getSelectedSubmodule w = some s →
      runM (forSubmodule env callback) w = runM (callback s) w) ∧
    (Keybindings env getKey config).map (fun b => b.Handler) =
      [forSubmodule env (Enter env), forSubmodule env (OpenResetMenu env),
        forSubmodule env (Update env), HandleAddSubmodule env,
        forSubmodule env (EditURL env), forSubmodule env (Init env),
        OpenBulkActionsMenu env] ∧
    (env.getSelectedSubmodule w = none →
      ∀ i ∈ [0, 1, 2, 4, 5], ∀ b, (Keybindings env getKey config).get? i = some b →
        runM b.Handler w = (none, w)) := by
  have hnone : ∀ cb : SubmoduleConfig → M Error, env.getSelectedSubmodule w = none →
      runM (forSubmodule env cb) w = (none, w) := by
    intro cb h
    simp [forSubmodule, h]
  refine ⟨hnone callback, ?_, rfl, ?_⟩
  · intro s h
    simp [forSubmodule, h]
  · intro h i hi b hb
    simp only [List.mem_cons, List.mem_singleton, List.not_mem_nil, or_false] at hi
    rcases hi with rfl | rfl | rfl | rfl | rfl <;>
      simp [Keybindings] at hb <;> subst hb <;> exact hnone _ h

/-- The claim C10 at concrete inputs: without a selection the init handler does
nothing, and with `demoSubmodule` selected it is `Init` on that submodule. -/
theorem forSubmodule_selection_witness :
    runM (forSubmodule demoEnv (Init demoEnv)) (startWorld []) = (none, startWorld []) ∧
    runM (forSubmodule selectedEnv (Init selectedEnv)) (startWorld []) =
      runM (Init selectedEnv demoSubmodule) (startWorld []) :=
  ⟨(forSubmodule_selection demoEnv (Init demoEnv) (startWorld []) id
      ⟨"", "", "", "", "", "", ""⟩).1 rfl,
   (forSubmodule_selection selectedEnv (Init selectedEnv) (startWorld []) id
      ⟨"", "", "", "", "", "", ""⟩).2.1 demoSubmodule rfl⟩

/-- C4: for every version and every non-nil error, the background handler only
logs the message of the error (no error sink, no error panel, no prompt, no
update) and returns `nil`, while the foreground handler calls `SurfaceError`
on the error exactly once, returns what it returns, and does nothing else. -/
theorem updateCheckFinish_error (env : Env) (newVersion : String) (err : Err) (w : World) :
    runM (onBackgroundUpdateCheckFinish env newVersion (some err)) w =
      (none, { w with trace := w.trace ++ [Event.LogError err.Error] }) ∧
    runM (onUserUpdateCheckFinish env newVersion (some err)) w =
      (env.SurfaceErrorResult err,
        { w with trace := w.trace ++ [Event.SurfaceError err] }) := by
  constructor <;> simp [onBackgroundUpdateCheckFinish, onUserUpdateCheckFinish]

/-- C3: `createUpdateQuitConfirmation` always presents the confirmation and
never changes `State.Updating` or the status registry. If the user does not
accept, no callback runs and the result is `nil`; if the user accepts, the
result is the one of the handler, `gocui.ErrQuit`, whatever the update state.
So the quit signal is produced exactly when the confirmation is accepted. -/
theorem createUpdateQuitConfirmation_quit (w : World) :
    (w.inputs.head? ≠ some UserInput.yes →
      runM createUpdateQuitConfirmation w =
        (none,
          { w with
            inputs := w.inputs.tail
            trace := w.trace ++ [Event.Ask "Currently Updating"
              "An update is in progress. Are you sure you want to quit?"] })) ∧
    (∀ rest, w.inputs = UserInput.yes :: rest →
      runM createUpdateQuitConfirmation w =
        (some Err.ErrQuit,
          { w with
            inputs := rest
            trace := w.trace ++ [Event.Ask "Currently Updating"
              "An update is in progress. Are you sure you want to quit?"] })) ∧
    (runM createUpdateQuitConfirmation w).2.Updating = w.Updating ∧
    (runM createUpdateQuitConfirmation w).2.statuses = w.statuses ∧
    (runM createUpdateQuitConfirmation w).2.nextStatusId = w.nextStatusId ∧
    ((runM createUpdateQuitConfirmation w).1 = some Err.ErrQuit ↔
      w.inputs.head? = some UserInput.yes) := by
  have hno : w.inputs.head? ≠ some UserInput.yes →
      runM createUpdateQuitConfirmation w =
        (none,
          { w with
            inputs := w.inputs.tail
            trace := w.trace ++ [Event.Ask "Currently Updating"
              "An update is in progress. Are you sure you want to quit?"] }) := by
    intro h
    rw [createUpdateQuitConfirmation, runM_Ask_decline _ _ h]
  have hyes : ∀ rest, w.inputs = UserInput.yes :: rest →
      runM createUpdateQuitConfirmation w =
        (some Err.ErrQuit,
          { w with
            inputs := rest
            trace := w.trace ++ [Event.Ask "Currently Updating"
              "An update is in progress. Are you sure you want to quit?"] }) := by
    intro rest h
    rw [createUpdateQuitConfirmation, runM_Ask_yes _ _ rest h]
    simp
  refine ⟨hno, hyes, ?_⟩
  by_cases hd : w.inputs.head? = some UserInput.yes
  · obtain ⟨rest, hrest⟩ : ∃ rest, w.inputs = UserInput.yes :: rest := by
      cases hw : w.inputs with
      | nil => simp [hw] at hd
      | cons i rest => simp [hw] at hd; exact ⟨rest, by rw [hd]⟩
    rw [hyes rest hrest]
    simp [hd]
  · rw [hno hd]
    simp [hd]

/-- The claim C3 at concrete inputs, during an update: declining leaves the
flag set and yields no quit signal, accepting yields `gocui.ErrQuit`. -/
theorem createUpdateQuitConfirmation_quit_witness :
    runM createUpdateQuitConfirmation
        { inputs := [UserInput.cancel], trace := [], statuses := [(0, "updating")],
          nextStatusId := 1, Updating := true } =
      (none,
        { inputs := [],
          trace := [Event.Ask "Currently Updating"
            "An update is in progress. Are you sure you want to quit?"],
          statuses := [(0, "updating")], nextStatusId := 1, Updating := true }) ∧
    runM createUpdateQuitConfirmation
        { inputs := [UserInput.yes], trace := [], statuses := [(0, "updating")],
          nextStatusId := 1, Updating := true } =
      (some Err.ErrQuit,
        { inputs := [],
          trace := [Event.Ask "Currently Updating"
            "An update is in progress. Are you sure you want to quit?"],
          statuses := [(0, "updating")], nextStatusId := 1, Updating := true }) :=
  ⟨(createUpdateQuitConfirmation_quit
      { inputs := [UserInput.cancel], trace := [], statuses := [(0, "updating")],
        nextStatusId := 1, Updating := true }).1 (by decide),
   (createUpdateQuitConfirmation_quit
      { inputs := [UserInput.yes], trace := [], statuses := [(0, "updating")],
        nextStatusId := 1, Updating := true }).2.1 [] rfl⟩

/-- C5: once the remove confirmation is accepted, the run logs the action and
calls `Delete`; if `Delete` returns no error exactly one refresh follows it,
with scope `[SUBMODULES, FILES]`, and its result is returned; if `Delete`
fails the error goes to the error sink and no refresh is requested. So a
refresh is requested if and only if `Delete` succeeds. -/
theorem removeSubmodule_refresh (env : Env) (submodule : SubmoduleConfig) (w : World)
    (rest : List UserInput) (h : w.inputs = UserInput.yes :: rest) :
    (env.gitResult (GitCall.SubmoduleDelete submodule) = none →
      runM (removeSubmodule env submodule) w =
        (env.RefreshResult
            { Scope := [RefreshableView.SUBMODULES, RefreshableView.FILES] },
          { w with
            inputs := rest
            trace := w.trace ++
              [Event.Ask env.Tr.RemoveSubmodule
                  (env.Sprintf env.Tr.RemoveSubmodulePrompt [submodule.Name]),
                Event.LogAction env.Tr.ActionsRemoveSubmodule,
                Event.Git (GitCall.SubmoduleDelete submodule),
                Event.Refresh
                  { Scope := [RefreshableView.SUBMODULES, RefreshableView.FILES] }] })) ∧
    (∀ err, env.gitResult (GitCall.SubmoduleDelete submodule) = some err →
      runM (removeSubmodule env submodule) w =
        (env.ErrorResult err,
          { w with
            inputs := rest
            trace := w.trace ++
              [Event.Ask env.Tr.RemoveSubmodule
                  (env.Sprintf env.Tr.RemoveSubmodulePrompt [submodule.Name]),
                Event.LogAction env.Tr.ActionsRemoveSubmodule,
                Event.Git (GitCall.SubmoduleDelete submodule),
                Event.Error err] })) ∧
    ((newEvents w (runM (removeSubmodule env submodule) w).2).countP Event.isRefresh =
      if env.gitResult (GitCall.SubmoduleDelete submodule) = none then 1 else 0) := by
  rw [removeSubmodule, runM_Ask_yes _ _ rest h]
  cases hd : env.gitResult (GitCall.SubmoduleDelete submodule) <;>
    simp [hd, newEvents, Event.isRefresh, List.countP_cons]

/-- The claim C5 at concrete inputs: a delete that succeeds is followed by one
refresh of submodules and files, a delete that fails by none. -/
theorem removeSubmodule_refresh_witness :
    (runM (removeSubmodule demoEnv demoSubmodule) (startWorld [UserInput.yes])).2.trace =
      [Event.Ask "RemoveSubmodule" "RemoveSubmodulePrompt",
        Event.LogAction "RemoveSubmodule",
        Event.Git (GitCall.SubmoduleDelete demoSubmodule),
        Event.Refresh { Scope := [RefreshableView.SUBMODULES, RefreshableView.FILES] }] ∧
    (runM (removeSubmodule failingEnv demoSubmodule) (startWorld [UserInput.yes])).2.trace =
      [Event.Ask "RemoveSubmodule" "RemoveSubmodulePrompt",
        Event.LogAction "RemoveSubmodule",
        Event.Git (GitCall.SubmoduleDelete demoSubmodule),
        Event.Error (Err.other "boom")] :=
  ⟨by
    rw [(removeSubmodule_refresh demoEnv demoSubmodule (startWorld [UserInput.yes]) []
      rfl).1 rfl]
    rfl,
   by
    rw [(removeSubmodule_refresh failingEnv demoSubmodule (startWorld [UserInput.yes]) []
      rfl).2.1 (Err.other "boom") rfl]
    rfl⟩

/-- C1: in a run of `HandleAddSubmodule` in which the user confirms fewer than
three prompts, that is, cancels at the URL, name or path prompt, the result is
`nil`, `Add` (the only call to the command executor of the operation) is
invoked zero times, no refresh is requested, no waiting status is registered
and the status registry is unchanged. When the three prompts are confirmed,
`Add` is invoked exactly once. So `Add` is invoked only after three
confirmations. -/
theorem HandleAddSubmodule_cancelled (env : Env) (w : World) :
    (runM (HandleAddSubmodule env) w).2.trace =
      w.trace ++ newEvents w (runM (HandleAddSubmodule env) w).2 ∧
    (confirmedSteps w.inputs < 3 →
      (runM (HandleAddSubmodule env) w).1 = none ∧
      (runM (HandleAddSubmodule env) w).2.statuses = w.statuses ∧
      (runM (HandleAddSubmodule env) w).2.nextStatusId = w.nextStatusId ∧
      (newEvents w (runM (HandleAddSubmodule env) w).2).countP Event.isGit = 0 ∧
      (newEvents w (runM (HandleAddSubmodule env) w).2).countP Event.isRefresh = 0 ∧
      (newEvents w (runM (HandleAddSubmodule env) w).2).countP
        Event.isAddWaitingStatus = 0) ∧
    (3 ≤ confirmedSteps w.inputs →
      ∃ name path url,
        (newEvents w (runM (HandleAddSubmodule env) w).2).filter Event.isGit =
          [Event.Git (GitCall.SubmoduleAdd name path url)]) := by
  rcases confirmedSteps_cases w.inputs with h1 | ⟨url, r1, hw1, hc1⟩
  · rw [HandleAddSubmodule_step1 env w h1]
    simp [newEvents, h1, Event.isGit, Event.isRefresh, Event.isAddWaitingStatus]
  rcases confirmedSteps_cases r1 with h2 | ⟨name, r2, hw2, hc2⟩
  · rw [HandleAddSubmodule_step2 env w url r1 hw1 h2]
    simp [newEvents, hc1, h2, Event.isGit, Event.isRefresh, Event.isAddWaitingStatus]
  rcases confirmedSteps_cases r2 with h3 | ⟨path, r3, hw3, hc3⟩
  · rw [HandleAddSubmodule_step3 env w url name r2 (by rw [hw1, hw2]) h3]
    simp [newEvents, hc1, hc2, h3, Event.isGit, Event.isRefresh, Event.isAddWaitingStatus]
  · rw [HandleAddSubmodule_confirmed env w url name path r3 (by rw [hw1, hw2, hw3])]
    refine ⟨by simp [newEvents], fun hlt => by omega, fun _ => ⟨name, path, url, ?_⟩⟩
    cases hg : env.gitResult (GitCall.SubmoduleAdd name path url) <;>
      simp [newEvents, errorEvents, Event.isGit, List.filter_cons]

/-- The claim C1 at concrete inputs: cancelling at the path prompt leaves a
trace of three prompts, without `Add`, refresh or status. -/
theorem HandleAddSubmodule_cancelled_witness :
    (newEvents (startWorld [UserInput.submit "u", UserInput.submit "n", UserInput.cancel])
      (runM (HandleAddSubmodule demoEnv)
        (startWorld [UserInput.submit "u", UserInput.submit "n", UserInput.cancel])).2).countP
      Event.isGit = 0 ∧
    ∃ name path url,
      (newEvents
        (startWorld [UserInput.submit "u", UserInput.submit "n", UserInput.submit "p"])
        (runM (HandleAddSubmodule demoEnv)
          (startWorld [UserInput.submit "u", UserInput.submit "n",
            UserInput.submit "p"])).2).filter Event.isGit =
        [Event.Git (GitCall.SubmoduleAdd name path url)] :=
  ⟨((HandleAddSubmodule_cancelled demoEnv
      (startWorld [UserInput.submit "u", UserInput.submit "n", UserInput.cancel])).2.1
      (by decide)).2.2.2.1,
   (HandleAddSubmodule_cancelled demoEnv
      (startWorld [UserInput.submit "u", UserInput.submit "n", UserInput.submit "p"])).2.2
      (by decide)⟩

/-- C7: once the user submits `url` at the first prompt, the name prompt is
presented with initial content `Base (TrimSuffix url (Ext url))`; for the URL
`https://example.com/foo/bar.git` that is `bar`, and in general, for a URL made
of a directory, a separator, a non-empty stem without separator, a dot and an
extension without separator or dot, it is the stem. Once the user then submits
a name, the path prompt is presented with that name as initial content. -/
theorem HandleAddSubmodule_suggestions (env : Env) (w : World) (url : String)
    (rest : List UserInput) (h : w.inputs = UserInput.submit url :: rest) :
    (∃ more, (runM (HandleAddSubmodule env) w).2.trace =
      w.trace ++
        [Event.Prompt env.Tr.LcNewSubmoduleUrl "",
          Event.Prompt env.Tr.LcNewSubmoduleName (Base (TrimSuffix url (Ext url)))] ++ more) ∧
    (∀ name rest2, rest = UserInput.submit name :: rest2 →
      ∃ more, (runM (HandleAddSubmodule env) w).2.trace =
        w.trace ++
          [Event.Prompt env.Tr.LcNewSubmoduleUrl "",
            Event.Prompt env.Tr.LcNewSubmoduleName (Base (TrimSuffix url (Ext url))),
            Event.Prompt env.Tr.LcNewSubmodulePath name] ++ more) ∧
    Base (TrimSuffix "https://example.com/foo/bar.git"
      (Ext "https://example.com/foo/bar.git")) = "bar" ∧
    (∀ dir stem ext : List Char, stem ≠ [] → (∀ c ∈ stem, c ≠ '/') →
      (∀ c ∈ ext, c ≠ '/' ∧ c ≠ '.') →
      url = String.mk (dir ++ '/' :: stem ++ '.' :: ext) →
      Base (TrimSuffix url (Ext url)) = String.mk stem) := by
  have hpath : ∀ name rest2, rest = UserInput.submit name :: rest2 →
      ∃ more, (runM (HandleAddSubmodule env) w).2.trace =
        w.trace ++
          [Event.Prompt env.Tr.LcNewSubmoduleUrl "",
            Event.Prompt env.Tr.LcNewSubmoduleName (Base (TrimSuffix url (Ext url))),
            Event.Prompt env.Tr.LcNewSubmodulePath name] ++ more := by
    intro name rest2 hrest
    rcases confirmedSteps_cases rest2 with h3 | ⟨path, r3, hw3, _⟩
    · rw [HandleAddSubmodule_step3 env w url name rest2 (by rw [h, hrest]) h3]
      exact ⟨[], by simp⟩
    · rw [HandleAddSubmodule_confirmed env w url name path r3 (by rw [h, hrest, hw3])]
      exact ⟨_, by simp only [List.append_assoc, List.cons_append, List.nil_append]; rfl⟩
  refine ⟨?_, hpath, by decide, ?_⟩
  · rcases confirmedSteps_cases rest with h2 | ⟨name, r2, hw2, _⟩
    · rw [HandleAddSubmodule_step2 env w url rest h h2]
      exact ⟨[], by simp⟩
    · obtain ⟨more, hmore⟩ := hpath name r2 hw2
      exact ⟨Event.Prompt env.Tr.LcNewSubmodulePath name :: more, by rw [hmore]; simp⟩
  · intro dir stem ext hs hstem hext hurl
    rw [hurl]
    exact suggestion_of_parts dir stem ext hs hstem hext

/-- The claim C7 at concrete inputs: the URL `https://example.com/foo/bar.git`
is submitted, then the edited name `baz`; the name prompt suggests `bar` and
the path prompt suggests `baz`. -/
theorem HandleAddSubmodule_suggestions_witness :
    ∃ more, (runM (HandleAddSubmodule demoEnv)
        (startWorld [UserInput.submit "https://example.com/foo/bar.git",
          UserInput.submit "baz"])).2.trace =
      (startWorld [UserInput.submit "https://example.com/foo/bar.git",
          UserInput.submit "baz"]).trace ++
        [Event.Prompt demoEnv.Tr.LcNewSubmoduleUrl "",
          Event.Prompt demoEnv.Tr.LcNewSubmoduleName
            (Base (TrimSuffix "https://example.com/foo/bar.git"
              (Ext "https://example.com/foo/bar.git"))),
          Event.Prompt demoEnv.Tr.LcNewSubmodulePath "baz"] ++ more :=
  (HandleAddSubmodule_suggestions demoEnv
    (startWorld [UserInput.submit "https://example.com/foo/bar.git", UserInput.submit "baz"])
    "https://example.com/foo/bar.git" [UserInput.submit "baz"] rfl).2.1 "baz" [] rfl

/-- C2, counterexample: the gui starts idle; a background check that finds
version `v1` under the update method `background` starts an update, which sets
`State.Updating`. In that state a second background check that finds `v2`
starts a second update: `Updater.Update` is called again and a second
`updating` status is registered. The same happens when a foreground check
finds `v2` in that state and the user confirms the prompt. -/
theorem second_update_started :
    (runM (onBackgroundUpdateCheckFinish backgroundEnv "v1" none) (startWorld [])).2 =
      { inputs := [],
        trace := [Event.AddWaitingStatus 0 "updating", Event.UpdaterUpdate "v1" 0],
        statuses := [(0, "updating")], nextStatusId := 1, Updating := true } ∧
    (runM (onBackgroundUpdateCheckFinish backgroundEnv "v2" none)
      { inputs := [],
        trace := [Event.AddWaitingStatus 0 "updating", Event.UpdaterUpdate "v1" 0],
        statuses := [(0, "updating")], nextStatusId := 1, Updating := true }).2 =
      { inputs := [],
        trace := [Event.AddWaitingStatus 0 "updating", Event.UpdaterUpdate "v1" 0,
          Event.AddWaitingStatus 1 "updating", Event.UpdaterUpdate "v2" 1],
        statuses := [(0, "updating"), (1, "updating")], nextStatusId := 2, Updating := true } ∧
    (runM (onUserUpdateCheckFinish demoEnv "v2" none)
      { inputs := [UserInput.yes],
        trace := [Event.AddWaitingStatus 0 "updating", Event.UpdaterUpdate "v1" 0],
        statuses := [(0, "updating")], nextStatusId := 1, Updating := true }).2 =
      { inputs := [],
        trace := [Event.AddWaitingStatus 0 "updating", Event.UpdaterUpdate "v1" 0,
          Event.Ask "New version available!" "Download version %s? (enter/esc)",
          Event.AddWaitingStatus 1 "updating", Event.UpdaterUpdate "v2" 1],
        statuses := [(0, "updating"), (1, "updating")], nextStatusId := 2, Updating := true } := by
  decide

/-- C2, amended: the handlers have no single-flight guard. In every state, and
so in every state with `State.Updating` set, a version-check result with no
error and a non-empty version starts an update whenever it reaches
`startUpdating`: directly in the background handler under the update method
`background`, and after a confirmed prompt in the background handler under
another method and in the foreground handler. `State.Updating` is then true,
one more `updating` status is registered under the next id and
`Updater.Update` is called once more. When the prompt is not confirmed no
update is started and only the prompt is recorded. -/
theorem update_started_again (env : Env) (w : World) (newVersion : String)
    (hv : newVersion ≠ "") :
    (env.UpdateMethod = "background" →
      runM (onBackgroundUpdateCheckFinish env newVersion none) w =
        (none,
          { w with
            Updating := true
            statuses := w.statuses ++ [(w.nextStatusId, "updating")]
            nextStatusId := w.nextStatusId + 1
            trace := w.trace ++
              [Event.AddWaitingStatus w.nextStatusId "updating",
                Event.UpdaterUpdate newVersion w.nextStatusId] })) ∧
    (env.UpdateMethod ≠ "background" → ∀ rest, w.inputs = UserInput.yes :: rest →
      runM (onBackgroundUpdateCheckFinish env newVersion none) w =
        (none,
          { w with
            inputs := rest
            Updating := true
            statuses := w.statuses ++ [(w.nextStatusId, "updating")]
            nextStatusId := w.nextStatusId + 1
            trace := w.trace ++
              [Event.Ask "New version available!"
                  (env.Sprintf "Download version %s? (enter/esc)" [newVersion]),
                Event.AddWaitingStatus w.nextStatusId "updating",
                Event.UpdaterUpdate newVersion w.nextStatusId] })) ∧
    (∀ rest, w.inputs = UserInput.yes :: rest →
      runM (onUserUpdateCheckFinish env newVersion none) w =
        (none,
          { w with
            inputs := rest
            Updating := true
            statuses := w.statuses ++ [(w.nextStatusId, "updating")]
            nextStatusId := w.nextStatusId + 1
            trace := w.trace ++
              [Event.Ask "New version available!"
                  (env.Sprintf "Download version %s? (enter/esc)" [newVersion]),
                Event.AddWaitingStatus w.nextStatusId "updating",
                Event.UpdaterUpdate newVersion w.nextStatusId] })) ∧
    (w.inputs.head? ≠ some UserInput.yes →
      runM (onUserUpdateCheckFinish env newVersion none) w =
        (none,
          { w with
            inputs := w.inputs.tail
            trace := w.trace ++
              [Event.Ask "New version available!"
                  (env.Sprintf "Download version %s? (enter/esc)" [newVersion])] }) ∧
      (env.UpdateMethod ≠ "background" →
        runM (onBackgroundUpdateCheckFinish env newVersion none) w =
          (none,
            { w with
              inputs := w.inputs.tail
              trace := w.trace ++
                [Event.Ask "New version available!"
                    (env.Sprintf "Download version %s? (enter/esc)" [newVersion])] }))) := by
  refine ⟨?_, ?_, ?_, ?_⟩
  · intro hm
    simp [onBackgroundUpdateCheckFinish, hv, hm, runM_startUpdating]
  · intro hm rest hw
    simp only [onBackgroundUpdateCheckFinish, hv, hm, if_false, showUpdatePrompt]
    rw [runM_Ask_yes _ _ rest hw]
    simp [runM_startUpdating]
  · intro rest hw
    simp only [onUserUpdateCheckFinish, hv, if_false, showUpdatePrompt]
    rw [runM_Ask_yes _ _ rest hw]
    simp [runM_startUpdating]
  · intro hd
    constructor
    · simp only [onUserUpdateCheckFinish, hv, if_false, showUpdatePrompt]
      rw [runM_Ask_decline _ _ hd]
    · intro hm
      simp only [onBackgroundUpdateCheckFinish, hv, hm, if_false, showUpdatePrompt]
      rw [runM_Ask_decline _ _ hd]

/-- The amended claim C2 at a concrete input: during an update, a background
check under the method `background` that finds `v2` starts a second update. -/
theorem update_started_again_witness :
    runM (onBackgroundUpdateCheckFinish backgroundEnv "v2" none)
      { inputs := [],
        trace := [Event.AddWaitingStatus 0 "updating", Event.UpdaterUpdate "v1" 0],
        statuses := [(0, "updating")], nextStatusId := 1, Updating := true } =
      (none,
        { inputs := [],
          trace := [Event.AddWaitingStatus 0 "updating", Event.UpdaterUpdate "v1" 0] ++
            [Event.AddWaitingStatus 1 "updating", Event.UpdaterUpdate "v2" 1],
          statuses := [(0, "updating")] ++ [(1, "updating")], nextStatusId := 1 + 1,
          Updating := true }) :=
  (update_started_again backgroundEnv
    { inputs := [],
      trace := [Event.AddWaitingStatus 0 "updating", Event.UpdaterUpdate "v1" 0],
      statuses := [(0, "updating")], nextStatusId := 1, Updating := true }
    "v2" (by decide)).1 rfl

/-- C6, counterexample: with a command executor that fails, the reset of
`demoSubmodule` stops at the failed unstage of its file: the error goes to the
error sink and no refresh is issued. -/
theorem resetSubmodule_without_refresh :
    (runM (resetSubmodule failingEnv demoSubmodule) (startWorld [])).2.trace =
      [Event.LogAction "ResetSubmodule",
        Event.Git (GitCall.WorkingTreeUnStageFile ["lib/bar"] true),
        Event.Error (Err.other "boom")] ∧
    (runM (resetSubmodule failingEnv demoSubmodule) (startWorld [])).2.trace.countP
      Event.isRefresh = 0 := by
  decide

/-- C6, amended: for every submodule and every file index, whether or not a
file is found for the submodule, a run of `resetSubmodule` in which every call
it makes to the command executor succeeds (the unstage when a file is found,
the stash, the reset) issues exactly one refresh, last, with mode `ASYNC` and
scope `[FILES, SUBMODULES]`, and returns its result. A run in which one of the
calls fails stops at the first call that fails: the calls before it were made,
the error that call returned is passed to the error sink, no later call is
made, the run returns what the sink returns and issues no refresh. Every
refresh the operation issues has that mode and scope. -/
theorem resetSubmodule_refresh (env : Env) (submodule : SubmoduleConfig) (w : World) :
    (runM (resetSubmodule env submodule) w).2.trace =
      w.trace ++ newEvents w (runM (resetSubmodule env submodule) w).2 ∧
    ((∀ call ∈ resetCalls env submodule, env.gitResult call = none) →
      runM (resetSubmodule env submodule) w =
        (env.RefreshResult
            { Mode := RefreshMode.ASYNC,
              Scope := [RefreshableView.FILES, RefreshableView.SUBMODULES] },
          { w with
            trace := w.trace ++
              ([Event.LogAction env.Tr.ActionsResetSubmodule] ++
                (resetCalls env submodule).map Event.Git ++
                [Event.Refresh
                  { Mode := RefreshMode.ASYNC,
                    Scope := [RefreshableView.FILES, RefreshableView.SUBMODULES] }]) })) ∧
    (∀ (done : List GitCall) (call : GitCall) (later : List GitCall) (err : Err),
      resetCalls env submodule = done ++ call :: later →
      (∀ c ∈ done, env.gitResult c = none) →
      env.gitResult call = some err →
      runM (resetSubmodule env submodule) w =
        (env.ErrorResult err,
          { w with
            trace := w.trace ++
              ([Event.LogAction env.Tr.ActionsResetSubmodule] ++
                (done ++ [call]).map Event.Git ++
                [Event.Error err]) })) ∧
    ((∃ call ∈ resetCalls env submodule, env.gitResult call ≠ none) →
      (newEvents w (runM (resetSubmodule env submodule) w).2).countP Event.isRefresh = 0 ∧
      ∃ err, (runM (resetSubmodule env submodule) w).1 = env.ErrorResult err ∧
        (newEvents w (runM (resetSubmodule env submodule) w).2).getLast? =
          some (Event.Error err)) ∧
    (∀ opts, Event.Refresh opts ∈ newEvents w (runM (resetSubmodule env submodule) w).2 →
      opts = { Mode := RefreshMode.ASYNC,
               Scope := [RefreshableView.FILES, RefreshableView.SUBMODULES] }) := by
  have hrest :
      (runM (resetSubmodule env submodule) w).2.trace =
        w.trace ++ newEvents w (runM (resetSubmodule env submodule) w).2 ∧
      ((∀ call ∈ resetCalls env submodule, env.gitResult call = none) →
        runM (resetSubmodule env submodule) w =
          (env.RefreshResult
              { Mode := RefreshMode.ASYNC,
                Scope := [RefreshableView.FILES, RefreshableView.SUBMODULES] },
            { w with
              trace := w.trace ++
                ([Event.LogAction env.Tr.ActionsResetSubmodule] ++
                  (resetCalls env submodule).map Event.Git ++
                  [Event.Refresh
                    { Mode := RefreshMode.ASYNC,
                      Scope := [RefreshableView.FILES, RefreshableView.SUBMODULES] }]) })) ∧
      ((∃ call ∈ resetCalls env submodule, env.gitResult call ≠ none) →
        (newEvents w (runM (resetSubmodule env submodule) w).2).countP Event.isRefresh = 0 ∧
        ∃ err, (runM (resetSubmodule env submodule) w).1 = env.ErrorResult err ∧
          (newEvents w (runM (resetSubmodule env submodule) w).2).getLast? =
            some (Event.Error err)) ∧
      (∀ opts, Event.Refresh opts ∈ newEvents w (runM (resetSubmodule env submodule) w).2 →
        opts = { Mode := RefreshMode.ASYNC,
                 Scope := [RefreshableView.FILES, RefreshableView.SUBMODULES] }) := by
    simp only [resetSubmodule, resetCalls]
    cases hf : FileForSubmodule env submodule with
    | none =>
      cases hs : env.gitResult (GitCall.SubmoduleStash submodule) <;>
      cases hr : env.gitResult (GitCall.SubmoduleReset submodule) <;>
      simp [hs, hr, newEvents, Event.isRefresh]
    | some file =>
      cases hu : env.gitResult (GitCall.WorkingTreeUnStageFile file.Names file.Tracked) <;>
      cases hs : env.gitResult (GitCall.SubmoduleStash submodule) <;>
      cases hr : env.gitResult (GitCall.SubmoduleReset submodule) <;>
      simp [hu, hs, hr, newEvents, Event.isRefresh]
  exact ⟨hrest.1, hrest.2.1,
    fun done call later err hsplit hdone hcall =>
      resetSubmodule_first_failure env submodule w done call later err hsplit hdone hcall,
    hrest.2.2.1, hrest.2.2.2⟩

/-- The amended claim C6 at concrete inputs: with a file found and every call
succeeding, the reset ends with the asynchronous refresh of files and
submodules; with a file found and a stash that fails after the unstage, the run
ends with the error of the stash at the error sink, without reset or refresh. -/
theorem resetSubmodule_refresh_witness :
    runM (resetSubmodule demoEnv demoSubmodule) (startWorld []) =
      (none,
        { inputs := [],
          trace := [] ++
            ([Event.LogAction "ResetSubmodule"] ++
              [Event.Git (GitCall.WorkingTreeUnStageFile ["lib/bar"] true),
                Event.Git (GitCall.SubmoduleStash demoSubmodule),
                Event.Git (GitCall.SubmoduleReset demoSubmodule)] ++
              [Event.Refresh
                { Mode := RefreshMode.ASYNC,
                  Scope := [RefreshableView.FILES, RefreshableView.SUBMODULES] }]),
          statuses := [], nextStatusId := 0, Updating := false }) ∧
    runM (resetSubmodule stashFailingEnv demoSubmodule) (startWorld []) =
      (none,
        { inputs := [],
          trace := [] ++
            ([Event.LogAction "ResetSubmodule"] ++
              [Event.Git (GitCall.WorkingTreeUnStageFile ["lib/bar"] true),
                Event.Git (GitCall.SubmoduleStash demoSubmodule)] ++
              [Event.Error (Err.other "stash failed")]),
          statuses := [], nextStatusId := 0, Updating := false }) :=
  ⟨(resetSubmodule_refresh demoEnv demoSubmodule (startWorld [])).2.1 (by decide),
   (resetSubmodule_refresh stashFailingEnv demoSubmodule (startWorld [])).2.2.1
      [GitCall.WorkingTreeUnStageFile ["lib/bar"] true]
      (GitCall.SubmoduleStash demoSubmodule)
      [GitCall.SubmoduleReset demoSubmodule]
      (Err.other "stash failed") rfl (by decide) rfl⟩

/-- C8: when the mutation of an operation returns the error `err`, the error is
passed to the error sink exactly once. For init, update, edit-URL (prompt
confirmed) and add (three prompts confirmed) exactly one refresh with scope
`[SUBMODULES]` follows the call to the sink, inside the waiting status, and the
result of the operation is the result of the refresh, not `err`. For each of
the four bulk commands, chosen in the bulk menu, the action returns what the
sink returns and requests no refresh; when the bulk command succeeds, one
refresh with scope `[SUBMODULES]` is requested and its result returned. -/
theorem mutation_failure_policy (env : Env) (submodule : SubmoduleConfig) (w : World)
    (err : Err) :
    (env.gitResult (GitCall.SubmoduleInit submodule.Path) = some err →
      (runM (Init env submodule) w).1 =
        env.RefreshResult { Scope := [RefreshableView.SUBMODULES] } ∧
      (runM (Init env submodule) w).2.trace =
        w.trace ++
          [Event.AddWaitingStatus w.nextStatusId env.Tr.LcInitializingSubmoduleStatus,
            Event.LogAction env.Tr.ActionsInitialiseSubmodule,
            Event.Git (GitCall.SubmoduleInit submodule.Path),
            Event.Error err,
            Event.Refresh { Scope := [RefreshableView.SUBMODULES] },
            Event.RemoveStatus w.nextStatusId]) ∧
    (env.gitResult (GitCall.SubmoduleUpdate submodule.Path) = some err →
      (runM (Update env submodule) w).1 =
        env.RefreshResult { Scope := [RefreshableView.SUBMODULES] } ∧
      (runM (Update env submodule) w).2.trace =
        w.trace ++
          [Event.AddWaitingStatus w.nextStatusId env.Tr.LcUpdatingSubmoduleStatus,
            Event.LogAction env.Tr.ActionsUpdateSubmodule,
            Event.Git (GitCall.SubmoduleUpdate submodule.Path),
            Event.Error err,
            Event.Refresh { Scope := [RefreshableView.SUBMODULES] },
            Event.RemoveStatus w.nextStatusId]) ∧
    (∀ newUrl rest, w.inputs = UserInput.submit newUrl :: rest →
      env.gitResult (GitCall.SubmoduleUpdateUrl submodule.Name submodule.Path newUrl) =
        some err →
      (runM (EditURL env submodule) w).1 =
        env.RefreshResult { Scope := [RefreshableView.SUBMODULES] } ∧
      (runM (EditURL env submodule) w).2.trace =
        w.trace ++
          [Event.Prompt (env.Sprintf env.Tr.LcUpdateSubmoduleUrl [submodule.Name]) submodule.Url,
            Event.AddWaitingStatus w.nextStatusId env.Tr.LcUpdatingSubmoduleUrlStatus,
            Event.LogAction env.Tr.ActionsUpdateSubmoduleUrl,
            Event.Git (GitCall.SubmoduleUpdateUrl submodule.Name submodule.Path newUrl),
            Event.Error err,
            Event.Refresh { Scope := [RefreshableView.SUBMODULES] },
            Event.RemoveStatus w.nextStatusId]) ∧
    (∀ url name path rest,
      w.inputs =
        UserInput.submit url :: UserInput.submit name :: UserInput.submit path :: rest →
      env.gitResult (GitCall.SubmoduleAdd name path url) = some err →
      (runM (HandleAddSubmodule env) w).1 =
        env.RefreshResult { Scope := [RefreshableView.SUBMODULES] } ∧
      (runM (HandleAddSubmodule env) w).2.trace =
        w.trace ++
          [Event.Prompt env.Tr.LcNewSubmoduleUrl "",
            Event.Prompt env.Tr.LcNewSubmoduleName (Base (TrimSuffix url (Ext url))),
            Event.Prompt env.Tr.LcNewSubmodulePath name,
            Event.AddWaitingStatus w.nextStatusId env.Tr.LcAddingSubmoduleStatus,
            Event.LogAction env.Tr.ActionsAddSubmodule,
            Event.Git (GitCall.SubmoduleAdd name path url),
            Event.Error err,
            Event.Refresh { Scope := [RefreshableView.SUBMODULES] },
            Event.RemoveStatus w.nextStatusId]) ∧
    (∀ i rest, i < 4 → w.inputs = UserInput.press i :: rest →
      (env.gitResult (bulkCall env i) = some err →
        (runM (OpenBulkActionsMenu env) w).1 = env.ErrorResult err ∧
        (runM (OpenBulkActionsMenu env) w).2.trace =
          w.trace ++
            [bulkMenuEvent env,
              Event.AddWaitingStatus w.nextStatusId env.Tr.LcRunningCommand,
              Event.LogAction (bulkLabel env i),
              Event.Git (bulkCall env i),
              Event.Error err,
              Event.RemoveStatus w.nextStatusId]) ∧
      (env.gitResult (bulkCall env i) = none →
        (runM (OpenBulkActionsMenu env) w).1 =
          env.RefreshResult { Scope := [RefreshableView.SUBMODULES] } ∧
        (runM (OpenBulkActionsMenu env) w).2.trace =
          w.trace ++
            [bulkMenuEvent env,
              Event.AddWaitingStatus w.nextStatusId env.Tr.LcRunningCommand,
              Event.LogAction (bulkLabel env i),
              Event.Git (bulkCall env i),
              Event.Refresh { Scope := [RefreshableView.SUBMODULES] },
              Event.RemoveStatus w.nextStatusId])) := by
  refine ⟨?_, ?_, ?_, ?_, ?_⟩
  · intro hg
    rw [Init_run]
    simp [hg, errorEvents]
  · intro hg
    rw [Update_run]
    simp [hg, errorEvents]
  · intro newUrl rest hw hg
    rw [EditURL_confirmed env submodule w newUrl rest hw]
    simp [hg, errorEvents]
  · intro url name path rest hw hg
    rw [HandleAddSubmodule_confirmed env w url name path rest hw]
    simp [hg, errorEvents]
  · intro i rest hi hw
    rw [OpenBulkActionsMenu_press env w i rest hi hw, bulkAction_run]
    constructor <;> intro hg <;> simp [hg]

/-- The claim C8 at concrete inputs, with a command executor that fails with
`boom`: init still refreshes the submodules after the error sink, and the bulk
stash-and-reset command stops after the error sink without a refresh. -/
theorem mutation_failure_policy_witness :
    ((runM (Init failingEnv demoSubmodule) (startWorld [])).1 = none ∧
      (runM (Init failingEnv demoSubmodule) (startWorld [])).2.trace =
        [] ++
          [Event.AddWaitingStatus 0 "LcInitializingSubmoduleStatus",
            Event.LogAction "InitialiseSubmodule",
            Event.Git (GitCall.SubmoduleInit "lib/bar"),
            Event.Error (Err.other "boom"),
            Event.Refresh { Scope := [RefreshableView.SUBMODULES] },
            Event.RemoveStatus 0]) ∧
    ((runM (OpenBulkActionsMenu failingEnv) (startWorld [UserInput.press 2])).1 = none ∧
      (runM (OpenBulkActionsMenu failingEnv) (startWorld [UserInput.press 2])).2.trace =
        [] ++
          [bulkMenuEvent failingEnv,
            Event.AddWaitingStatus 0 "LcRunningCommand",
            Event.LogAction "BulkStashAndResetSubmodules",
            Event.Git (GitCall.SubmoduleResetSubmodules [demoSubmodule]),
            Event.Error (Err.other "boom"),
            Event.RemoveStatus 0]) :=
  ⟨(mutation_failure_policy failingEnv demoSubmodule (startWorld []) (Err.other "boom")).1
      rfl,
   ((mutation_failure_policy failingEnv demoSubmodule (startWorld [UserInput.press 2])
      (Err.other "boom")).2.2.2.2 2 [] (by decide) rfl).1 rfl⟩

/-- C9, counterexample: the user accepts the removal of `demoSubmodule` in the
start world, where no status is active. `Delete` is called and the refresh is
requested while the run registers no waiting status: the registry is empty
throughout. -/
theorem removeSubmodule_without_status :
    runM (removeSubmodule demoEnv demoSubmodule) (startWorld [UserInput.yes]) =
      (none,
        { inputs := [],
          trace :=
            [Event.Ask "RemoveSubmodule" "RemoveSubmodulePrompt",
              Event.LogAction "RemoveSubmodule",
              Event.Git (GitCall.SubmoduleDelete demoSubmodule),
              Event.Refresh { Scope := [RefreshableView.SUBMODULES, RefreshableView.FILES] }],
          statuses := [], nextStatusId := 0, Updating := false }) ∧
    (runM (removeSubmodule demoEnv demoSubmodule) (startWorld [UserInput.yes])).2.trace.countP
      Event.isAddWaitingStatus = 0 := by
  decide

/-- C9, amended: in add, edit-URL, init, update, each bulk command and the
`Reset` handler, whatever the user does at the prompts or in the menu, every
call to the command executor and every refresh request happens while the
waiting status registered by the operation under its own label is active.
Remove runs outside any waiting status: once its confirmation is accepted it
calls `Delete` and registers no status. -/
theorem mutation_under_status (env : Env) (submodule : SubmoduleConfig) (w : World) :
    runsUnderStatus env.Tr.LcAddingSubmoduleStatus (HandleAddSubmodule env) w = true ∧
    runsUnderStatus env.Tr.LcUpdatingSubmoduleUrlStatus (EditURL env submodule) w = true ∧
    runsUnderStatus env.Tr.LcInitializingSubmoduleStatus (Init env submodule) w = true ∧
    runsUnderStatus env.Tr.LcUpdatingSubmoduleStatus (Update env submodule) w = true ∧
    runsUnderStatus env.Tr.LcRunningCommand (OpenBulkActionsMenu env) w = true ∧
    runsUnderStatus env.Tr.LcResettingSubmoduleStatus (Reset env submodule) w = true ∧
    (∀ rest, w.inputs = UserInput.yes :: rest →
      (newEvents w (runM (removeSubmodule env submodule) w).2).countP
        Event.isAddWaitingStatus = 0 ∧
      (runM (removeSubmodule env submodule) w).2.statuses = w.statuses ∧
      (newEvents w (runM (removeSubmodule env submodule) w).2).countP Event.isGit = 1) := by
  refine ⟨?_, ?_, ?_, ?_, ?_, Reset_underStatus env submodule w, ?_⟩
  all_goals try rw [runsUnderStatus_iff]
  · rcases confirmedSteps_cases w.inputs with h1 | ⟨url, r1, hw1, _⟩
    · rw [HandleAddSubmodule_step1 env w h1]
      simp [newEvents, underStatus]
    rcases confirmedSteps_cases r1 with h2 | ⟨name, r2, hw2, _⟩
    · rw [HandleAddSubmodule_step2 env w url r1 hw1 h2]
      simp [newEvents, underStatus]
    rcases confirmedSteps_cases r2 with h3 | ⟨path, r3, hw3, _⟩
    · rw [HandleAddSubmodule_step3 env w url name r2 (by rw [hw1, hw2]) h3]
      simp [newEvents, underStatus]
    · rw [HandleAddSubmodule_confirmed env w url name path r3 (by rw [hw1, hw2, hw3])]
      cases hg : env.gitResult (GitCall.SubmoduleAdd name path url) <;>
        simp [newEvents, underStatus, errorEvents]
  · rcases confirmedSteps_cases w.inputs with h1 | ⟨newUrl, r1, hw1, _⟩
    · rw [EditURL_cancel env submodule w h1]
      simp [newEvents, underStatus]
    · rw [EditURL_confirmed env submodule w newUrl r1 hw1]
      cases hg : env.gitResult
          (GitCall.SubmoduleUpdateUrl submodule.Name submodule.Path newUrl) <;>
        simp [newEvents, underStatus, errorEvents]
  · rw [Init_run]
    cases hg : env.gitResult (GitCall.SubmoduleInit submodule.Path) <;>
      simp [newEvents, underStatus, errorEvents]
  · rw [Update_run]
    cases hg : env.gitResult (GitCall.SubmoduleUpdate submodule.Path) <;>
      simp [newEvents, underStatus, errorEvents]
  · by_cases hp : ∃ i rest, i < 4 ∧ w.inputs = UserInput.press i :: rest
    · obtain ⟨i, rest, hi, hw⟩ := hp
      rw [OpenBulkActionsMenu_press env w i rest hi hw, bulkAction_run]
      cases hg : env.gitResult (bulkCall env i) <;>
        simp [newEvents, underStatus, bulkMenuEvent]
    · rw [OpenBulkActionsMenu_other env w (by
        intro i rest hw
        by_contra hlt
        exact hp ⟨i, rest, by omega, hw⟩)]
      simp [newEvents, underStatus, bulkMenuEvent]
  · intro rest hw
    rw [removeSubmodule, runM_Ask_yes _ _ rest hw]
    cases hd : env.gitResult (GitCall.SubmoduleDelete submodule) <;>
      simp [hd, newEvents, Event.isAddWaitingStatus, Event.isGit, List.countP_cons]

/-- The amended claim C9 at concrete inputs: an add whose three prompts are
confirmed runs its mutation and refresh under its waiting status, and an
accepted removal calls the command executor once and registers no waiting
status. -/
theorem mutation_under_status_witness :
    runsUnderStatus demoEnv.Tr.LcAddingSubmoduleStatus (HandleAddSubmodule demoEnv)
        (startWorld [UserInput.submit "u", UserInput.submit "n", UserInput.submit "p"]) =
      true ∧
    ((newEvents (startWorld [UserInput.yes])
        (runM (removeSubmodule demoEnv demoSubmodule) (startWorld [UserInput.yes])).2).countP
      Event.isAddWaitingStatus = 0 ∧
    (runM (removeSubmodule demoEnv demoSubmodule) (startWorld [UserInput.yes])).2.statuses =
      (startWorld [UserInput.yes]).statuses ∧
    (newEvents (startWorld [UserInput.yes])
        (runM (removeSubmodule demoEnv demoSubmodule) (startWorld [UserInput.yes])).2).countP
      Event.isGit = 1) :=
  ⟨(mutation_under_status demoEnv demoSubmodule
      (startWorld [UserInput.submit "u", UserInput.submit "n", UserInput.submit "p"])).1,
   (mutation_under_status demoEnv demoSubmodule
      (startWorld [UserInput.yes])).2.2.2.2.2.2 [] rfl⟩

end Lazygit
